import Mathlib

/-
Verification development for the SIGI indicator-catalog backend
(src/main.py, src/models.py, src/database.py).

The relational state is embedded as lists of rows (one list per table,
mirroring the five SQLModel tables of models.py).  Endpoint handlers from
main.py are embedded as pure functions from a `Store` (plus the request
data) to an `Except`-value: `.ok` carries the post-commit store or the
response payload, `.error` carries the HTTP error the handler raises.  A
request that raises leaves the database untouched (the session context
manager rolls back), which the `Except` shape models directly.

Python `None`/absent-JSON-key is `Option.none`; Python falsy tests on
strings (`if nome:` accepting neither `None` nor `""`) are modelled by
`truthy`.  The float column `Condicao.nota` is carried opaquely (never
computed with), modelled by `Rat`.
-/

deriving instance DecidableEq for Except

namespace Sigi

/-! ## Python string primitives (str.strip, str.lower, `in`) -/

/-- Python whitespace characters recognised by `str.strip()`. -/
def isPySpace (c : Char) : Bool :=
  c = ' ' || c = '\t' || c = '\n' || c = '\r' || c = '\x0b' || c = '\x0c'

def dropWs : List Char → List Char
  | [] => []
  | c :: r => if isPySpace c then dropWs r else c :: r

/-- Strip leading and trailing whitespace, as Python `str.strip()`. -/
def stripChars (l : List Char) : List Char :=
  ((dropWs ((dropWs l).reverse)).reverse)

/-- Embedding of `s.strip().lower()` (ASCII lowering, as in the stored data). -/
def pyStripLower (s : String) : List Char :=
  (stripChars s.toList).map Char.toLower

def listStarts : List Char → List Char → Bool
  | [], _ => true
  | _ :: _, [] => false
  | a :: as, b :: bs => a = b && listStarts as bs

/-- Occurrence of `needle` as a contiguous run inside `hay`:
Python `needle in hay` on strings. -/
def listOccurs (needle : List Char) : List Char → Bool
  | [] => needle.isEmpty
  | c :: rest => listStarts needle (c :: rest) || listOccurs needle rest

/-! ## Python truthiness on optional request values -/

/-- Python truthiness of an optional string: `None` and `""` are falsy. -/
def truthy : Option String → Bool
  | some s => s ≠ ""
  | none => false

/-- Python truthiness of an optional integer: `None` and `0` are falsy. -/
def truthyInt : Option Int → Bool
  | some n => n ≠ 0
  | none => false

/-- Python `a or b` on two optional strings (`i.get("nome_indicador") or
i.get("nome")`, main.py line 77): the left value unless it is falsy. -/
def pyOr (a b : Option String) : Option String :=
  match a with
  | some s => if s = "" then b else some s
  | none => b

/-! ## Data model — the five tables of src/models.py -/

/-- Row of table `municipio` (models.py lines 13-26). -/
structure Municipio where
  id : Nat
  municipio : String
  uf : String
  edital : Option String
  ano_edital : Option Int
deriving DecidableEq

/-- Row of table `indicador` (models.py lines 79-120).  `nome_indicador` is a
non-nullable column; the three JSON list columns hold string lists. -/
structure Indicador where
  id : Nat
  municipio_id : Nat
  nome_indicador : String
  descricao : Option String
  unidade : Option String
  tags : List String
  observacoes : List String
  inconsistencias : List String
deriving DecidableEq

/-- Row of table `formula` (models.py lines 29-44); `indicador_id` is a unique
foreign key (1:1 with `indicador`). -/
structure Formula where
  id : Nat
  indicador_id : Nat
  bruta : Option String
  normalizada : Option String
  hash : Option String
deriving DecidableEq

/-- Row of table `subindicador` (models.py lines 47-60).  The `nome` column is
non-nullable in the schema, but the ORM object can hold `None` until the
flush rejects it; hence `Option String` here, with the NOT NULL check
applied at commit time (see `subsNotNullOk`). -/
structure Subindicador where
  id : Nat
  indicador_id : Nat
  nome : Option String
  descricao : Option String
  unidade : Option String
deriving DecidableEq

/-- Row of table `condicao` (models.py lines 63-76); `nota` is a float column,
carried opaquely as an exact rational. -/
structure Condicao where
  id : Nat
  indicador_id : Nat
  regra : Option String
  nota : Option Rat
deriving DecidableEq

/-- The whole database: one list of rows per table, in insertion order (the
order the unordered SQL queries of main.py in fact return on this schema). -/
structure Store where
  municipios : List Municipio
  indicadores : List Indicador
  formulas : List Formula
  subindicadores : List Subindicador
  condicoes : List Condicao
deriving DecidableEq

/-- Referential integrity of the store: every child row's foreign key
references an existing parent row (the Record Store invariant of the spec;
states reachable by the API keep it except through the delete bug noted at
`excluirIndicadorOp`). -/
def Store.fkOkB (s : Store) : Bool :=
  s.indicadores.all (fun i => s.municipios.any (fun m => m.id == i.municipio_id)) &&
  s.formulas.all (fun f => s.indicadores.any (fun i => i.id == f.indicador_id)) &&
  s.subindicadores.all (fun sb => s.indicadores.any (fun i => i.id == sb.indicador_id)) &&
  s.condicoes.all (fun cd => s.indicadores.any (fun i => i.id == cd.indicador_id))

/-- Next autoincrement id for a table: one past the largest id in use. -/
def freshId (ids : List Nat) : Nat := ids.foldr (fun a b => max a b) 0 + 1

def Store.freshMunId (s : Store) : Nat := freshId (s.municipios.map (·.id))
def Store.freshIndId (s : Store) : Nat := freshId (s.indicadores.map (·.id))
def Store.freshFormulaId (s : Store) : Nat := freshId (s.formulas.map (·.id))
def Store.freshSubId (s : Store) : Nat := freshId (s.subindicadores.map (·.id))
def Store.freshCondId (s : Store) : Nat := freshId (s.condicoes.map (·.id))

/-! ## Import documents — the JSON shape read by `importar_indicadores`
(main.py lines 42-139).  A record field models a JSON key, `none` meaning
the key is absent (all reads go through `.get`, which treats absence and
`null` alike for the fields below). -/

/-- The `formula` object of an indicator entry (main.py lines 90-95). -/
structure FormulaDoc where
  bruta : Option String
  normalizada : Option String
  hash : Option String
deriving DecidableEq

/-- One entry of the `subindicadores` list (main.py lines 97-103). -/
structure SubDoc where
  nome : Option String
  descricao : Option String
deriving DecidableEq

/-- One `{regra, nota}` object of `condicoes` (main.py lines 107-116). -/
structure CondDoc where
  regra : Option String
  nota : Option Rat
deriving DecidableEq

/-- The `condicoes` value of an indicator entry: a flat list, a mapping of
group name to list (`dict`), or any other JSON value (`other`), which the
`isinstance` dispatch of main.py lines 106-116 silently ignores.  An absent
key is `.list []` (`i.get("condicoes", [])`). -/
inductive CondField where
  | list (conds : List CondDoc)
  | dict (groups : List (String × List CondDoc))
  | other
deriving DecidableEq

/-- One entry of the `indicadores` list (main.py lines 76-118).  The name may
come under either of two keys (`nome_indicador` / `nome`). -/
structure IndDoc where
  nome_indicador : Option String
  nome : Option String
  descricao : Option String
  unidade : Option String
  tags : Option (List String)
  observacoes : Option (List String)
  inconsistencias : Option (List String)
  formula : Option FormulaDoc
  subindicadores : List SubDoc
  condicoes : CondField
deriving DecidableEq

/-- A whole import document (main.py lines 60-76): `municipio` and `uf` are
required keys, `edital`/`ano_edital` optional, plus the indicator list. -/
structure Doc where
  municipio : String
  uf : String
  edital : Option String
  ano_edital : Option Int
  indicadores : List IndDoc
deriving DecidableEq

/-! ## The importer (main.py lines 42-139) -/

inductive ImpError where
  /-- 400 "Este conjunto de indicadores já foi importado" (main.py line 67). -/
  | duplicate
  /-- 400 "Indicador sem 'nome_indicador'" (main.py line 79). -/
  | missingIndicatorName
  /-- 500 from the database rejecting a NULL in a NOT NULL column at
  `session.commit()` (subindicador.nome, models.py line 53). -/
  | integrityError
deriving DecidableEq

/-- Flattening of the `condicoes` field into pending `Condicao` data
(main.py lines 105-116): a list is taken as is, a mapping contributes its
value lists in order, anything else contributes nothing. -/
def condsOfField : CondField → List CondDoc
  | .list cs => cs.map (fun c => { regra := c.regra, nota := c.nota })
  | .dict gs => gs.flatMap (fun g => g.2.map (fun c => { regra := c.regra, nota := c.nota }))
  | .other => []

/-- In-memory indicator subtree as built by the import loop, before ids are
assigned at flush. -/
structure PInd where
  nome_indicador : String
  descricao : Option String
  unidade : Option String
  tags : List String
  observacoes : List String
  inconsistencias : List String
  formula : Option FormulaDoc
  subindicadores : List SubDoc
  condicoes : List CondDoc
deriving DecidableEq

/-- One iteration of the import loop (main.py lines 76-118): resolve the name
from either key, reject a falsy name, default the JSON-list fields, keep the
formula only when it is a JSON object, flatten the conditions. -/
def buildInd (i : IndDoc) : Except ImpError PInd :=
  match pyOr i.nome_indicador i.nome with
  | none => .error .missingIndicatorName
  | some s =>
    if s = "" then .error .missingIndicatorName
    else .ok {
      nome_indicador := s
      descricao := i.descricao
      unidade := i.unidade
      tags := i.tags.getD []
      observacoes := i.observacoes.getD []
      inconsistencias := i.inconsistencias.getD []
      formula := i.formula
      subindicadores := i.subindicadores
      condicoes := condsOfField i.condicoes }

/-- The import loop over the `indicadores` list; the first failing entry
aborts the whole request. -/
def buildInds : List IndDoc → Except ImpError (List PInd)
  | [] => .ok []
  | i :: rest =>
    match buildInd i with
    | .error e => .error e
    | .ok p =>
      match buildInds rest with
      | .error e => .error e
      | .ok ps => .ok (p :: ps)

/-- The duplicate guard (main.py lines 57-67): a stored Municipality with the
same (municipio, uf, edital, ano_edital) tuple. -/
def dupIn (s : Store) (d : Doc) : Bool :=
  s.municipios.any (fun m =>
    m.municipio == d.municipio && m.uf == d.uf &&
    m.edital == d.edital && m.ano_edital == d.ano_edital)

/-- NOT NULL check the database applies at flush: every pending sub-indicator
row must carry a name (subindicador.nome is non-nullable, models.py line 53;
the import loop itself never checks it). -/
def subsNotNullOk (ps : List PInd) : Bool :=
  ps.all (fun p => p.subindicadores.all (fun sb => sb.nome.isSome))

def mkFormulaRows (fa ia : Nat) : Option FormulaDoc → List Formula
  | some f => [{ id := fa, indicador_id := ia, bruta := f.bruta, normalizada := f.normalizada, hash := f.hash }]
  | none => []

def mkSubRows (sa ia : Nat) : List SubDoc → List Subindicador
  | [] => []
  | sb :: r =>
    { id := sa, indicador_id := ia, nome := sb.nome, descricao := sb.descricao, unidade := none }
      :: mkSubRows (sa + 1) ia r

def mkCondRows (ca ia : Nat) : List CondDoc → List Condicao
  | [] => []
  | c :: r =>
    { id := ca, indicador_id := ia, regra := c.regra, nota := c.nota }
      :: mkCondRows (ca + 1) ia r

/-- Rows produced for one import by the flush. -/
structure Rows where
  inds : List Indicador
  formulas : List Formula
  subs : List Subindicador
  conds : List Condicao
deriving DecidableEq

/-- Id assignment and row creation at flush: indicators get consecutive ids
starting at `ia`, each child row points at its indicator. -/
def commitInds (mid : Nat) : Nat → Nat → Nat → Nat → List PInd → Rows
  | _, _, _, _, [] => ⟨[], [], [], []⟩
  | ia, fa, sa, ca, p :: rest =>
    let ind : Indicador :=
      { id := ia, municipio_id := mid, nome_indicador := p.nome_indicador
        descricao := p.descricao, unidade := p.unidade
        tags := p.tags, observacoes := p.observacoes, inconsistencias := p.inconsistencias }
    let fs := mkFormulaRows fa ia p.formula
    let sbs := mkSubRows sa ia p.subindicadores
    let cds := mkCondRows ca ia p.condicoes
    let r := commitInds mid (ia + 1) (fa + fs.length) (sa + sbs.length) (ca + cds.length) rest
    ⟨ind :: r.inds, fs ++ r.formulas, sbs ++ r.subs, cds ++ r.conds⟩

/-- POST /indicadores/importar (main.py lines 42-139): duplicate guard, the
construction loop, then one atomic `session.add` + `session.commit`. -/
def importar (s : Store) (d : Doc) : Except ImpError Store :=
  if dupIn s d then .error .duplicate
  else
    match buildInds d.indicadores with
    | .error e => .error e
    | .ok ps =>
      if subsNotNullOk ps then
        let mid := s.freshMunId
        let r := commitInds mid s.freshIndId s.freshFormulaId s.freshSubId s.freshCondId ps
        .ok { municipios := s.municipios ++
                [{ id := mid, municipio := d.municipio, uf := d.uf
                   edital := d.edital, ano_edital := d.ano_edital }]
              indicadores := s.indicadores ++ r.inds
              formulas := s.formulas ++ r.formulas
              subindicadores := s.subindicadores ++ r.subs
              condicoes := s.condicoes ++ r.conds }
      else .error .integrityError

/-- Database state after an import request: the committed store on success,
the unchanged store when the handler raised (session rolled back). -/
def importarState (s : Store) (d : Doc) : Store :=
  match importar s d with
  | .ok s2 => s2
  | .error _ => s

/-! ## The exporter — GET /indicadores/exportar/{id} (main.py lines 496-538) -/

/-- Serialization of one indicator row with its children looked up in the
given child tables (main.py lines 505-526). -/
def exportIndLists (formulas : List Formula) (subs : List Subindicador)
    (conds : List Condicao) (i : Indicador) : IndDoc :=
  let fo := formulas.find? (fun f => f.indicador_id == i.id)
  { nome_indicador := some i.nome_indicador
    nome := none
    descricao := i.descricao
    unidade := i.unidade
    tags := some i.tags
    observacoes := some i.observacoes
    inconsistencias := some i.inconsistencias
    formula := fo.map (fun f => { bruta := f.bruta, normalizada := f.normalizada, hash := f.hash })
    subindicadores := (subs.filter (fun sb => sb.indicador_id == i.id)).map
      (fun sb => { nome := sb.nome, descricao := sb.descricao })
    condicoes := .list ((conds.filter (fun cd => cd.indicador_id == i.id)).map
      (fun cd => { regra := cd.regra, nota := cd.nota })) }

/-- GET /indicadores/exportar/{id}: 404 (`none`) when the municipality is
absent, else the nested JSON document; `condicoes` always comes out as the
flat list form. -/
def exportar (s : Store) (mid : Nat) : Option Doc :=
  match s.municipios.find? (fun m => m.id == mid) with
  | none => none
  | some m =>
    some { municipio := m.municipio, uf := m.uf
           edital := m.edital, ano_edital := m.ano_edital
           indicadores := (s.indicadores.filter (fun i => i.municipio_id == mid)).map
             (exportIndLists s.formulas s.subindicadores s.condicoes) }

/-- Round trip of one document: import it, then export the municipality
that the import created. -/
def roundTrip (s : Store) (d : Doc) : Option Doc :=
  match importar s d with
  | .ok s2 => exportar s2 s.freshMunId
  | .error _ => none

/-! ## Listing — GET /indicadores (main.py lines 151-182) -/

inductive ListErr where
  | notFound
deriving DecidableEq

/-- The four optional query filters, applied in sequence; a falsy value
(`None`, `""`, `0`) leaves the query unfiltered (`if municipio:` etc.,
main.py lines 159-166). -/
def listarQuery (s : Store) (municipio uf edital : Option String)
    (ano_edital : Option Int) : List Municipio :=
  let q1 := if truthy municipio then
      s.municipios.filter (fun m => m.municipio == municipio.getD "") else s.municipios
  let q2 := if truthy uf then q1.filter (fun m => m.uf == uf.getD "") else q1
  let q3 := if truthy edital then q2.filter (fun m => m.edital == some (edital.getD "")) else q2
  let q4 := if truthyInt ano_edital then
      q3.filter (fun m => m.ano_edital == some (ano_edital.getD 0)) else q3
  q4

/-- GET /indicadores: 404 when the filtered result is empty (main.py lines
170-180), the matching municipality rows otherwise. -/
def listar (s : Store) (municipio uf edital : Option String)
    (ano_edital : Option Int) : Except ListErr (List Municipio) :=
  let resultado := listarQuery s municipio uf edital ano_edital
  if resultado.isEmpty then .error .notFound else .ok resultado

/-- The claim's reading of the filter semantics, for comparison: every
supplied (non-`None`) filter is an exact-match conjunct, and an empty
result is 404. -/
def claimedFilterB (municipio uf edital : Option String) (ano : Option Int)
    (m : Municipio) : Bool :=
  (match municipio with | some v => m.municipio == v | none => true) &&
  (match uf with | some v => m.uf == v | none => true) &&
  (match edital with | some v => m.edital == some v | none => true) &&
  (match ano with | some n => m.ano_edital == some n | none => true)

def listarClaimed (s : Store) (municipio uf edital : Option String)
    (ano : Option Int) : Except ListErr (List Municipio) :=
  let r := s.municipios.filter (claimedFilterB municipio uf edital ano)
  if r.isEmpty then .error .notFound else .ok r

/-- The amended filter semantics: every supplied truthy filter is an
exact-match conjunct; a supplied falsy filter (`""`, `0`) is ignored. -/
def effFilterB (municipio uf edital : Option String) (ano : Option Int)
    (m : Municipio) : Bool :=
  (if truthyInt ano then m.ano_edital == some (ano.getD 0) else true) &&
  ((if truthy edital then m.edital == some (edital.getD "") else true) &&
   ((if truthy uf then m.uf == uf.getD "" else true) &&
    (if truthy municipio then m.municipio == municipio.getD "" else true)))

def listarAmended (s : Store) (municipio uf edital : Option String)
    (ano : Option Int) : Except ListErr (List Municipio) :=
  let r := s.municipios.filter (fun m => effFilterB municipio uf edital ano m)
  if r.isEmpty then .error .notFound else .ok r

/-! ## Comparison — GET /indicadores/comparar (main.py lines 189-254) -/

inductive CompErr where
  /-- 400 "Informe um critério de comparação" (main.py line 196). -/
  | noCriterion
  /-- 400 "Informe apenas um critério por vez" (main.py line 198). -/
  | multiCriteria
  /-- 404 JSON body "Nenhum indicador corresponde à pesquisa" (main.py
  lines 248-252). -/
  | emptyResult
deriving DecidableEq

/-- The match test of the loop body (main.py lines 208-221), an if/elif
chain: a truthy `nome` with a truthy stored name is decided by bidirectional
substring containment of the stripped/lowered strings; otherwise a truthy
`formula` needs an existing formula with truthy `normalizada` equal (after
strip/lower) to the query; otherwise a truthy `hash` needs an existing
formula whose hash column equals the query. -/
def matchCrit (s : Store) (nome formula hash : Option String) (i : Indicador) : Bool :=
  let fo := s.formulas.find? (fun f => f.indicador_id == i.id)
  if truthy nome && i.nome_indicador ≠ "" then
    listOccurs (pyStripLower (nome.getD "")) (pyStripLower i.nome_indicador) ||
    listOccurs (pyStripLower i.nome_indicador) (pyStripLower (nome.getD ""))
  else if truthy formula &&
      (match fo with
       | some f => truthy f.normalizada &&
           pyStripLower (formula.getD "") = pyStripLower (f.normalizada.getD "")
       | none => false) then
    true
  else if truthy hash && (match fo with | some f => f.hash == hash | none => false) then
    true
  else
    false

/-- Traversal order of the double loop (main.py lines 204-205): every
municipality in store order, each paired with its indicators. -/
def munInds (s : Store) : List (Municipio × Indicador) :=
  s.municipios.flatMap (fun m =>
    (s.indicadores.filter (fun i => i.municipio_id == m.id)).map (fun i => (m, i)))

/-- The (municipality, indicator) pairs the comparison loop collects. -/
def compararMatched (s : Store) (nome formula hash : Option String) :
    List (Municipio × Indicador) :=
  (munInds s).filter (fun mi => matchCrit s nome formula hash mi.2)

/-- One element of the `equivalentes` response list (main.py lines 224-246). -/
structure CompEntry where
  id : Nat
  municipio : String
  uf : String
  nome_indicador : String
  descricao : Option String
  unidade : Option String
  tags : List String
  observacoes : List String
  inconsistencias : List String
  formula : Option FormulaDoc
  subindicadores : List SubDoc
  condicoes : List CondDoc
deriving DecidableEq

def compEntryOf (s : Store) (m : Municipio) (i : Indicador) : CompEntry :=
  let fo := s.formulas.find? (fun f => f.indicador_id == i.id)
  { id := i.id, municipio := m.municipio, uf := m.uf
    nome_indicador := i.nome_indicador, descricao := i.descricao, unidade := i.unidade
    tags := i.tags, observacoes := i.observacoes, inconsistencias := i.inconsistencias
    formula := fo.map (fun f => { bruta := f.bruta, normalizada := f.normalizada, hash := f.hash })
    subindicadores := (s.subindicadores.filter (fun sb => sb.indicador_id == i.id)).map
      (fun sb => { nome := sb.nome, descricao := sb.descricao })
    condicoes := (s.condicoes.filter (fun cd => cd.indicador_id == i.id)).map
      (fun cd => { regra := cd.regra, nota := cd.nota }) }

/-- GET /indicadores/comparar: exactly one of the three criteria must be
supplied (non-`None`); an empty match list is the 404 response. -/
def comparar (s : Store) (nome formula hash : Option String) :
    Except CompErr (List CompEntry) :=
  let filtros := [nome, formula, hash].filterMap id
  if filtros.length = 0 then .error .noCriterion
  else if 1 < filtros.length then .error .multiCriteria
  else
    let equivalentes := (compararMatched s nome formula hash).map
      (fun mi => compEntryOf s mi.1 mi.2)
    if equivalentes.isEmpty then .error .emptyResult else .ok equivalentes

/-! ## Similarity groups — GET /indicadores/semelhantes (main.py lines 261-314) -/

inductive Criterio where
  | hash
  | formula
deriving DecidableEq

/-- The grouping key column: `Formula.hash` or `Formula.normalizada` (main.py
lines 264-283). -/
def keyOf : Criterio → Formula → Option String
  | .hash, f => f.hash
  | .formula, f => f.normalizada

/-- Number of formula rows carrying a given key value (the grouped
`func.count` of the subquery). -/
def countVal (s : Store) (c : Criterio) (v : String) : Nat :=
  (s.formulas.filter (fun f => keyOf c f == some v)).length

/-- The joined formula set: rows whose non-null key value occurs on more than
one row (subquery with HAVING count > 1, joined back on the key). -/
def joinedFormulas (s : Store) (c : Criterio) : List Formula :=
  s.formulas.filter (fun f =>
    match keyOf c f with
    | some v => decide (1 < countVal s c v)
    | none => false)

/-- One member of a similarity group (main.py lines 297-308). -/
structure GroupEntry where
  id : Nat
  nome_indicador : String
  descricao : Option String
  municipio : Option String
  uf : Option String
  formula : FormulaDoc
deriving DecidableEq

/-- The group member built from a formula row: `none` when the owning
indicator row is missing (`if ind:`, main.py line 294); the municipality
fields are null when that row is missing (main.py lines 301-302). -/
def entryOf (s : Store) (f : Formula) : Option GroupEntry :=
  match s.indicadores.find? (fun i => i.id == f.indicador_id) with
  | none => none
  | some ind =>
    let m := s.municipios.find? (fun mm => mm.id == ind.municipio_id)
    some { id := ind.id, nome_indicador := ind.nome_indicador, descricao := ind.descricao
           municipio := m.map (·.municipio), uf := m.map (·.uf)
           formula := { bruta := f.bruta, normalizada := f.normalizada, hash := f.hash } }

/-- One iteration of the grouping loop (main.py lines 287-308): make sure the
key has a (possibly empty) group, then append the member if the indicator
row resolved. -/
def addToGroups (gs : List (String × List GroupEntry)) (k : String)
    (e : Option GroupEntry) : List (String × List GroupEntry) :=
  let gs1 := if gs.any (fun g => g.1 == k) then gs else gs ++ [(k, [])]
  match e with
  | none => gs1
  | some en => gs1.map (fun g => if g.1 == k then (g.1, g.2 ++ [en]) else g)

/-- The `agrupador` of main.py lines 273/283 applied to a joined row: its key
column value (always present on joined rows). -/
def theKey (c : Criterio) (f : Formula) : String := (keyOf c f).getD ""

/-- GET /indicadores/semelhantes: the insertion-ordered dict of groups, as an
association list. -/
def semelhantes (s : Store) (c : Criterio) : List (String × List GroupEntry) :=
  (joinedFormulas s c).foldl
    (fun gs f => addToGroups gs (theKey c f) (entryOf s f)) []

/-! ## CRUD — GET/PUT/DELETE /indicadores/{id}, DELETE /indicadores
(main.py lines 367-436) -/

inductive CrudErr where
  | notFound
  /-- 500: the flush tried to null out `indicador.municipio_id` — a NOT NULL
  column — because `Municipio.indicadores` (models.py line 23) carries no
  delete cascade, and the database rejected it. -/
  | integrityError
deriving DecidableEq

/-- GET /indicadores/{id} (main.py lines 373-378). -/
def obterIndicador (s : Store) (id : Nat) : Except CrudErr Municipio :=
  match s.municipios.find? (fun m => m.id == id) with
  | none => .error .notFound
  | some m => .ok m

/-- PUT /indicadores/{id} (main.py lines 386-399): `session.merge` of a
request-body `Municipio` whose id is forced to the path id.  The body object
carries only the scalar columns (the `indicadores` relationship is not a
request field and is not loaded on the transient object), so the merge
writes the four scalar fields of the existing row and touches no child
table. -/
def atualizar (s : Store) (id : Nat) (dados : Municipio) : Except CrudErr Store :=
  match s.municipios.find? (fun m => m.id == id) with
  | none => .error .notFound
  | some _ =>
    .ok { s with municipios := s.municipios.map (fun m =>
      if m.id == id then
        { id := id, municipio := dados.municipio, uf := dados.uf
          edital := dados.edital, ano_edital := dados.ano_edital }
      else m) }

/-- DELETE /indicadores/{id} (main.py lines 406-417): `session.delete` on the
municipality row.  `Municipio.indicadores` (models.py lines 22-23) is a
relationship with no `cascade="all, delete-orphan"` — unlike the three child
relationships on `Indicador` (models.py lines 109-120) — so at flush the ORM
does not delete the indicator rows: it updates their `municipio_id` to NULL,
and that column is non-nullable (models.py line 83), so the flush fails with
an IntegrityError (surfaced as HTTP 500) and the transaction rolls back.
The delete therefore only succeeds for a municipality with no indicators. -/
def excluirIndicadorOp (s : Store) (id : Nat) : Except CrudErr Store :=
  match s.municipios.find? (fun m => m.id == id) with
  | none => .error .notFound
  | some _ =>
    if s.indicadores.any (fun i => i.municipio_id == id) then .error .integrityError
    else .ok { s with municipios := s.municipios.filter (fun m => !(m.id == id)) }

/-- DELETE /indicadores (main.py lines 424-436): no-op success on an empty
store, otherwise every municipality row is deleted in one transaction; as in
`excluirIndicadorOp`, any indicator row owned by any of them makes the flush
fail with an IntegrityError and nothing is deleted.  On success the reported
count is the number of municipality rows removed. -/
def excluirTodosOp (s : Store) : Except CrudErr (Nat × Store) :=
  if s.municipios.isEmpty then .ok (0, s)
  else if s.municipios.any (fun m => s.indicadores.any (fun i => i.municipio_id == m.id)) then
    .error .integrityError
  else .ok (s.municipios.length, { s with municipios := [] })

/-! ## Canonical documents (the shape the exporter itself produces) -/

/-- An indicator entry in export shape: the name under `nome_indicador` and
non-empty, the three JSON list fields present, every sub-indicator entry
named, and `condicoes` in the flat list form. -/
def IndDoc.canonicalB (i : IndDoc) : Bool :=
  (match i.nome_indicador with | some s => s ≠ "" | none => false) &&
  i.nome.isNone &&
  i.tags.isSome && i.observacoes.isSome && i.inconsistencias.isSome &&
  i.subindicadores.all (fun sb => sb.nome.isSome) &&
  (match i.condicoes with | .list _ => true | _ => false)

def Doc.canonicalB (d : Doc) : Bool := d.indicadores.all IndDoc.canonicalB

/-- The export document an indicator subtree deserializes back to. -/
def pindToDoc (p : PInd) : IndDoc :=
  { nome_indicador := some p.nome_indicador
    nome := none
    descricao := p.descricao
    unidade := p.unidade
    tags := some p.tags
    observacoes := some p.observacoes
    inconsistencias := some p.inconsistencias
    formula := p.formula
    subindicadores := p.subindicadores
    condicoes := .list p.condicoes }

/-- A document whose `condicoes` values are rewritten from the ignored
non-list non-dict form to the empty list. -/
def normalizeCondOther (i : IndDoc) : IndDoc :=
  match i.condicoes with
  | .other => { i with condicoes := .list [] }
  | _ => i

/-! ## General helper lemmas -/

lemma le_foldr_max (l : List Nat) (x : Nat) (hx : x ∈ l) :
    x ≤ l.foldr (fun a b => max a b) 0 := by
  induction l with
  | nil => cases hx
  | cons a t ih =>
    rcases List.mem_cons.mp hx with rfl | h
    · exact Nat.le_max_left _ _
    · exact Nat.le_trans (ih h) (Nat.le_max_right _ _)

lemma freshId_gt (ids : List Nat) (x : Nat) (hx : x ∈ ids) : x < freshId ids :=
  Nat.lt_succ_of_le (le_foldr_max ids x hx)

/-- Two distinct members force length at least two. -/
lemma two_le_length_of_mem_ne {α : Type} {l : List α} {a b : α}
    (ha : a ∈ l) (hb : b ∈ l) (hab : a ≠ b) : 2 ≤ l.length := by
  match l with
  | [] => cases ha
  | [x] =>
    rw [List.mem_singleton] at ha hb
    exact absurd (ha.trans hb.symm) hab
  | x :: y :: t => simp [Nat.succ_le_succ, Nat.le_add_left]

/-! ## C3 / C4 / C7 helper lemmas about the importer -/

lemma buildInd_falsy {i : IndDoc}
    (h : truthy (pyOr i.nome_indicador i.nome) = false) :
    buildInd i = .error .missingIndicatorName := by
  unfold buildInd
  cases hp : pyOr i.nome_indicador i.nome with
  | none => rfl
  | some s =>
    rw [hp] at h
    simp only [truthy, decide_eq_false_iff_not, Decidable.not_not] at h
    simp [h]

lemma buildInd_error_name {i : IndDoc} {e : ImpError}
    (h : buildInd i = .error e) : e = .missingIndicatorName := by
  unfold buildInd at h
  split at h
  · exact (Except.error.inj h).symm
  · split at h
    · exact (Except.error.inj h).symm
    · cases h

lemma buildInd_ok_fields {i : IndDoc} {p : PInd} (h : buildInd i = .ok p) :
    p.subindicadores = i.subindicadores := by
  unfold buildInd at h
  split at h
  · cases h
  · split at h
    · cases h
    · cases Except.ok.inj h
      rfl

lemma buildInds_missing :
    ∀ (docs : List IndDoc),
      (∃ i, i ∈ docs ∧ truthy (pyOr i.nome_indicador i.nome) = false) →
      buildInds docs = .error .missingIndicatorName := by
  intro docs
  induction docs with
  | nil => rintro ⟨i, hi, -⟩; cases hi
  | cons a rest ih =>
    rintro ⟨i, hi, hf⟩
    rcases List.mem_cons.mp hi with rfl | hmem
    · unfold buildInds; rw [buildInd_falsy hf]
    · unfold buildInds
      cases hb : buildInd a with
      | error e => rw [buildInd_error_name hb]
      | ok p => rw [ih ⟨i, hmem, hf⟩]

lemma buildInds_ok_subs :
    ∀ (docs : List IndDoc) (ps : List PInd), buildInds docs = .ok ps →
      ∀ i ∈ docs, ∃ p ∈ ps, p.subindicadores = i.subindicadores := by
  intro docs
  induction docs with
  | nil => intro ps _ i hi; cases hi
  | cons a rest ih =>
    intro ps h i hi
    unfold buildInds at h
    cases hb : buildInd a <;> rw [hb] at h
    · cases h
    · cases hr : buildInds rest <;> rw [hr] at h
      · cases h
      · cases Except.ok.inj h
        rcases List.mem_cons.mp hi with rfl | hmem
        · exact ⟨_, List.mem_cons_self _ _, buildInd_ok_fields hb⟩
        · obtain ⟨p, hp, he⟩ := ih _ hr i hmem
          exact ⟨p, List.mem_cons_of_mem _ hp, he⟩

/-! ## C1 — cascade delete of a Municipality (code bug)

The spec says deleting a Municipality cascades to its Indicators and their
subtrees.  The code cannot do that: `Municipio.indicadores` (models.py lines
22-23) is declared with no delete cascade, while `indicador.municipio_id`
(models.py line 83) is a non-nullable column, so the flush of
`session.delete(m)` fails with an IntegrityError (HTTP 500) for any
municipality that has indicators, and every child row survives. -/

/-- The spec's own worked example: municipality id 7 with 3 indicators, each
owning a formula. -/
def c1Store : Store :=
  { municipios := [⟨7, "Itanhaem", "SP", some "001/2023", some 2023⟩]
    indicadores := [⟨1, 7, "I1", none, none, [], [], []⟩,
                    ⟨2, 7, "I2", none, none, [], [], []⟩,
                    ⟨3, 7, "I3", none, none, [], [], []⟩]
    formulas := [⟨1, 1, some "a", some "a", some "h1"⟩,
                 ⟨2, 2, some "b", some "b", some "h2"⟩,
                 ⟨3, 3, some "c", some "c", some "h3"⟩]
    subindicadores := []
    condicoes := [] }

/-- C1: deleting a stored Municipality is claimed to cascade-delete its
Indicators and transitively their Formulas/Sub-indicators/Conditions,
leaving no orphans.  On the spec's own example (id 7, three indicators with
formulas) both delete operations instead fail with the database integrity
error, so no child row is deleted and the children remain fetchable: the
claim describes intended behaviour the code does not implement. -/
theorem c1_delete_does_not_cascade :
    excluirIndicadorOp c1Store 7 = .error .integrityError ∧
    excluirTodosOp c1Store = .error .integrityError ∧
    c1Store.indicadores.length = 3 ∧ c1Store.formulas.length = 3 := by
  refine ⟨by decide, by decide, rfl, rfl⟩

/-! ## C3 — duplicate import is rejected and changes nothing -/

/-- C3: importing a document whose (name, state-code, tender-id, tender-year)
tuple matches a stored Municipality fails with the duplicate error, and the
store — in particular its indicator count — is unchanged. -/
theorem c3_duplicate_import_rejected (s : Store) (d : Doc) (m : Municipio)
    (hm : m ∈ s.municipios) (h1 : m.municipio = d.municipio) (h2 : m.uf = d.uf)
    (h3 : m.edital = d.edital) (h4 : m.ano_edital = d.ano_edital) :
    importar s d = .error .duplicate ∧ importarState s d = s ∧
    (importarState s d).indicadores.length = s.indicadores.length := by
  have hdup : dupIn s d = true := by
    unfold dupIn
    rw [List.any_eq_true]
    exact ⟨m, hm, by simp [h1, h2, h3, h4]⟩
  have himp : importar s d = .error .duplicate := by
    unfold importar; rw [hdup]; rfl
  have hst : importarState s d = s := by
    unfold importarState; rw [himp]
  exact ⟨himp, hst, by rw [hst]⟩

/-- Witness for C3 at a concrete store and document. -/
def c3Mun : Municipio := ⟨1, "Santos", "SP", some "002/2024", some 2024⟩

def c3Store : Store :=
  { municipios := [c3Mun]
    indicadores := [⟨1, 1, "I1", none, none, [], [], []⟩]
    formulas := [], subindicadores := [], condicoes := [] }

def c3Doc : Doc :=
  { municipio := "Santos", uf := "SP", edital := some "002/2024", ano_edital := some 2024
    indicadores := [] }

theorem c3_duplicate_import_rejected_witness :
    c3Mun ∈ c3Store.municipios ∧
    (importar c3Store c3Doc = .error .duplicate ∧
     importarState c3Store c3Doc = c3Store ∧
     (importarState c3Store c3Doc).indicadores.length = c3Store.indicadores.length) :=
  ⟨by decide,
   c3_duplicate_import_rejected c3Store c3Doc c3Mun (by decide) rfl rfl rfl rfl⟩

/-! ## C4 — missing indicator name aborts the import with no partial commit
(corrected: the duplicate guard runs first and can pre-empt the error) -/

/-- C4 (amended): a document in which some indicator entry has no name under
either accepted key never commits anything (the store is unchanged), and —
unless the duplicate guard fires first on an already-stored key tuple, which
also commits nothing but reports the duplicate error — the error is
precisely the missing-required-field one. -/
theorem c4_missing_name_rejected (s : Store) (d : Doc)
    (h : ∃ i, i ∈ d.indicadores ∧ truthy (pyOr i.nome_indicador i.nome) = false) :
    importarState s d = s ∧
    (dupIn s d = false → importar s d = .error .missingIndicatorName) := by
  have hb := buildInds_missing d.indicadores h
  cases hdup : dupIn s d with
  | true =>
    have himp : importar s d = .error .duplicate := by
      unfold importar; rw [hdup]; rfl
    refine ⟨by unfold importarState; rw [himp], fun hc => Bool.noConfusion hc⟩
  | false =>
    have himp : importar s d = .error .missingIndicatorName := by
      unfold importar; rw [hdup]; simp only [Bool.false_eq_true, if_false]; rw [hb]
    exact ⟨by unfold importarState; rw [himp], fun _ => himp⟩

def c4Doc : Doc :=
  { municipio := "Bauru", uf := "SP", edital := none, ano_edital := none
    indicadores := [
      { nome_indicador := some "Ok", nome := none, descricao := none, unidade := none
        tags := none, observacoes := none, inconsistencias := none, formula := none
        subindicadores := [], condicoes := .list [] },
      { nome_indicador := none, nome := some "", descricao := some "sem nome", unidade := none
        tags := none, observacoes := none, inconsistencias := none, formula := none
        subindicadores := [], condicoes := .list [] }] }

def c4Store : Store := ⟨[], [], [], [], []⟩

theorem c4_missing_name_rejected_witness :
    (∃ i, i ∈ c4Doc.indicadores ∧ truthy (pyOr i.nome_indicador i.nome) = false) ∧
    importarState c4Store c4Doc = c4Store ∧
    (dupIn c4Store c4Doc = false → importar c4Store c4Doc = .error .missingIndicatorName) := by
  have h : ∃ i, i ∈ c4Doc.indicadores ∧ truthy (pyOr i.nome_indicador i.nome) = false := by
    refine ⟨c4Doc.indicadores.get ⟨1, by decide⟩, by decide, by decide⟩
  exact ⟨h, c4_missing_name_rejected c4Store c4Doc h⟩

/-- An indicator entry with no name under either accepted key. -/
def c4NamelessEntry : IndDoc :=
  { nome_indicador := none, nome := some "", descricao := some "sem nome", unidade := none
    tags := none, observacoes := none, inconsistencias := none, formula := none
    subindicadores := [], condicoes := .list [] }

/-- A store already holding the key tuple of `c4DupDoc`. -/
def c4DupStore : Store :=
  { municipios := [⟨1, "Recife", "PE", some "004/2024", some 2024⟩]
    indicadores := [⟨1, 1, "I1", none, none, [], [], []⟩]
    formulas := [], subindicadores := [], condicoes := [] }

/-- A document with a nameless indicator entry whose (name, state-code,
tender-id, tender-year) tuple is already stored in `c4DupStore`. -/
def c4DupDoc : Doc :=
  { municipio := "Recife", uf := "PE", edital := some "004/2024", ano_edital := some 2024
    indicadores := [c4NamelessEntry] }

/-- C4 counterexample: the claim asserts that a document with a nameless
indicator entry fails with the missing-required-field error, unconditionally
over stores.  In a store already holding the document's key tuple the
duplicate guard (main.py lines 57-67) runs before the name check (main.py
lines 76-79): the import is rejected with the duplicate error instead, so
the claim as stated fails there (nothing is persisted either way). -/
theorem c4_duplicate_precedence_cex :
    c4NamelessEntry ∈ c4DupDoc.indicadores ∧
    truthy (pyOr c4NamelessEntry.nome_indicador c4NamelessEntry.nome) = false ∧
    importar c4DupStore c4DupDoc = .error .duplicate ∧
    importar c4DupStore c4DupDoc ≠ .error .missingIndicatorName := by
  refine ⟨by decide, by decide, by decide, by decide⟩

/-! ## C7 — sub-indicator entries need a name; both condicoes forms flatten
to the same Condition list -/

/-- C7: an import whose document contains a sub-indicator entry with no name
is never committed — the flush hits the NOT NULL `subindicador.nome` column,
the request fails and the store is unchanged, so the entry is not silently
stored — and the two accepted `condicoes` forms (flat list, or mapping of
group name to lists) flatten to the same Condition list: a mapping yields
exactly the list obtained by concatenating its group lists. -/
theorem c7_sub_name_and_cond_flatten :
    (∀ (s : Store) (d : Doc),
      (∃ i sb, i ∈ d.indicadores ∧ sb ∈ i.subindicadores ∧ sb.nome = none) →
      (∀ s2, importar s d ≠ .ok s2) ∧ importarState s d = s) ∧
    (∀ gs : List (String × List CondDoc),
      condsOfField (.dict gs) = condsOfField (.list (gs.flatMap Prod.snd))) := by
  constructor
  · intro s d hw
    have : ∀ s2, importar s d ≠ .ok s2 := by
      intro s2 hok
      unfold importar at hok
      by_cases hdup : dupIn s d = true
      · rw [if_pos hdup] at hok; cases hok
      · rw [if_neg hdup] at hok
        cases hb : buildInds d.indicadores with
        | error e => rw [hb] at hok; cases hok
        | ok ps =>
          rw [hb] at hok
          obtain ⟨i, sb, hi, hsb, hn⟩ := hw
          obtain ⟨p, hp, he⟩ := buildInds_ok_subs d.indicadores ps hb i hi
          have hfail : subsNotNullOk ps = false := by
            unfold subsNotNullOk
            rw [List.all_eq_false]
            refine ⟨p, hp, ?_⟩
            rw [List.all_eq_true]
            intro hall
            have := hall sb (he ▸ hsb)
            rw [hn] at this
            cases this
          simp [hfail] at hok
    refine ⟨this, ?_⟩
    unfold importarState
    cases himp : importar s d with
    | ok s2 => exact absurd himp (this s2)
    | error e => rfl
  · intro gs
    show (gs.flatMap fun g =>
        List.map (fun c => ({ regra := c.regra, nota := c.nota } : CondDoc)) g.2) =
      List.map (fun c => ({ regra := c.regra, nota := c.nota } : CondDoc)) (gs.flatMap Prod.snd)
    rw [List.map_flatMap]

def c7Doc : Doc :=
  { municipio := "Franca", uf := "SP", edital := none, ano_edital := none
    indicadores := [
      { nome_indicador := some "I", nome := none, descricao := none, unidade := none
        tags := none, observacoes := none, inconsistencias := none, formula := none
        subindicadores := [{ nome := none, descricao := some "anonimo" }]
        condicoes := .list [] }] }

def c7Store : Store := ⟨[], [], [], [], []⟩

def c7Groups : List (String × List CondDoc) :=
  [("g1", [{ regra := some "r1", nota := some 1 }]),
   ("g2", [{ regra := some "r2", nota := none }, { regra := none, nota := some 3 }])]

theorem c7_sub_name_and_cond_flatten_witness :
    ((∀ s2, importar c7Store c7Doc ≠ .ok s2) ∧ importarState c7Store c7Doc = c7Store) ∧
    condsOfField (.dict c7Groups) = condsOfField (.list (c7Groups.flatMap Prod.snd)) := by
  refine ⟨c7_sub_name_and_cond_flatten.1 c7Store c7Doc ?_, c7_sub_name_and_cond_flatten.2 c7Groups⟩
  exact ⟨c7Doc.indicadores.get ⟨0, by decide⟩,
         { nome := none, descricao := some "anonimo" }, by decide, by decide, rfl⟩

/-! ## C10 — condicoes that is neither list nor dict is silently ignored -/

lemma buildInd_normalize (i : IndDoc) :
    buildInd (normalizeCondOther i) = buildInd i := by
  unfold normalizeCondOther
  cases hc : i.condicoes with
  | other =>
    show buildInd { i with condicoes := .list [] } = buildInd i
    unfold buildInd
    cases hp : pyOr i.nome_indicador i.nome with
    | none => rfl
    | some s =>
      by_cases hs : s = ""
      · simp [hs]
      · simp only [if_neg hs]
        congr 1
        simp [condsOfField, hc]
  | list cs => rfl
  | dict gs => rfl

lemma buildInds_normalize (docs : List IndDoc) :
    buildInds (docs.map normalizeCondOther) = buildInds docs := by
  induction docs with
  | nil => rfl
  | cons a rest ih =>
    show buildInds (normalizeCondOther a :: rest.map normalizeCondOther) = _
    unfold buildInds
    rw [buildInd_normalize, ih]

/-- C10: a `condicoes` value that is neither a list nor a mapping does not
fail the import — the whole request behaves exactly as if the value were the
empty list (the indicator is created with no Conditions, and everything
else is imported normally), and such a value contributes no Condition
rows. -/
theorem c10_condicoes_other_ignored :
    (∀ (s : Store) (d : Doc),
      importar s { d with indicadores := d.indicadores.map normalizeCondOther } =
        importar s d) ∧
    condsOfField .other = condsOfField (.list []) := by
  refine ⟨fun s d => ?_, rfl⟩
  unfold importar
  rw [show dupIn s { d with indicadores := d.indicadores.map normalizeCondOther } = dupIn s d from rfl]
  rw [show ({ d with indicadores := d.indicadores.map normalizeCondOther } : Doc).indicadores
        = d.indicadores.map normalizeCondOther from rfl]
  rw [buildInds_normalize]

/-! ## C8 — list filters: falsy supplied filters are ignored (corrected) -/

def c8Mun : Municipio := ⟨1, "Santos", "SP", none, some 2023⟩

def c8Store : Store := ⟨[c8Mun], [], [], [], []⟩

/-- C8 counterexample: with the year filter supplied as 0, the claim's
semantics (supplied filters are exact-match ANDed; empty result is 404)
demands the not-found outcome — no stored municipality has year 0 — but the
code treats the falsy filter as absent and returns the whole store. -/
theorem c8_falsy_filter_cex :
    listar c8Store none none none (some 0) = .ok [c8Mun] ∧
    listarClaimed c8Store none none none (some 0) = .error .notFound := by
  refine ⟨by decide, by decide⟩

/-- C8 (amended): the supplied truthy filters are ANDed as exact matches, a
supplied falsy filter (empty string, zero year) is ignored, and an empty
effective result — including on an empty store — is reported as 404. -/
theorem c8_effective_filters (s : Store) (municipio uf edital : Option String)
    (ano : Option Int) :
    listar s municipio uf edital ano = listarAmended s municipio uf edital ano := by
  unfold listar listarAmended listarQuery
  cases h1 : truthy municipio <;> cases h2 : truthy uf <;>
    cases h3 : truthy edital <;> cases h4 : truthyInt ano <;>
      simp [h1, h2, h3, h4, effFilterB, List.filter_filter, Bool.and_assoc]

/-! ## C9 — PUT replaces only the Municipality's scalar fields -/

/-- C9: a successful full-replace update rewrites exactly the four scalar
fields of the targeted Municipality row and leaves every Indicator, Formula,
Sub-indicator and Condition row — and every other Municipality row —
untouched. -/
theorem c9_update_is_shallow (s : Store) (id : Nat) (dados : Municipio) (s2 : Store)
    (h : atualizar s id dados = .ok s2) :
    s2.indicadores = s.indicadores ∧ s2.formulas = s.formulas ∧
    s2.subindicadores = s.subindicadores ∧ s2.condicoes = s.condicoes ∧
    s2.municipios = s.municipios.map (fun m =>
      if m.id == id then
        { id := id, municipio := dados.municipio, uf := dados.uf
          edital := dados.edital, ano_edital := dados.ano_edital }
      else m) ∧
    (∀ m ∈ s.municipios, m.id ≠ id → m ∈ s2.municipios) := by
  unfold atualizar at h
  cases hf : s.municipios.find? (fun m => m.id == id) <;> rw [hf] at h
  · cases h
  · cases Except.ok.inj h
    refine ⟨rfl, rfl, rfl, rfl, rfl, ?_⟩
    intro m hm hne
    exact List.mem_map.mpr ⟨m, hm, by simp [hne]⟩

def c9Store : Store :=
  { municipios := [⟨1, "Santos", "SP", none, some 2023⟩, ⟨2, "Niteroi", "RJ", none, none⟩]
    indicadores := [⟨1, 1, "I1", none, none, ["t"], [], []⟩]
    formulas := [⟨1, 1, some "x", some "x", some "h"⟩]
    subindicadores := [⟨1, 1, some "s", none, none⟩]
    condicoes := [⟨1, 1, some "r", some 1⟩] }

def c9Dados : Municipio := ⟨99, "Santos Novo", "SP", some "003/2025", some 2025⟩

theorem c9_update_is_shallow_witness :
    atualizar c9Store 1 c9Dados =
      .ok { c9Store with municipios := [⟨1, "Santos Novo", "SP", some "003/2025", some 2025⟩,
                                        ⟨2, "Niteroi", "RJ", none, none⟩] } ∧
    ((atualizar c9Store 1 c9Dados).toOption.map Store.indicadores = some c9Store.indicadores) := by
  constructor
  · decide
  · have h : atualizar c9Store 1 c9Dados =
        .ok { c9Store with municipios := [⟨1, "Santos Novo", "SP", some "003/2025", some 2025⟩,
                                          ⟨2, "Niteroi", "RJ", none, none⟩] } := by decide
    rw [h]
    exact congrArg some (c9_update_is_shallow c9Store 1 c9Dados _ h).1

/-! ## C6 — name comparison is bidirectional case-insensitive containment -/

/-- C6: with the name criterion, a stored Indicator (whose stored name is
non-empty, as the importer guarantees) is collected by the comparison scan
exactly when, after stripping and lowering both strings, the query occurs
inside the indicator's name or the indicator's name occurs inside the
query. -/
theorem c6_name_match_bidirectional (s : Store) (q : String)
    (m : Municipio) (i : Indicador)
    (hq : q ≠ "") (hn : i.nome_indicador ≠ "")
    (hm : m ∈ s.municipios) (hi : i ∈ s.indicadores) (ho : i.municipio_id = m.id) :
    ((m, i) ∈ compararMatched s (some q) none none ↔
      (listOccurs (pyStripLower q) (pyStripLower i.nome_indicador) = true ∨
       listOccurs (pyStripLower i.nome_indicador) (pyStripLower q) = true)) := by
  have hmem : (m, i) ∈ munInds s := by
    unfold munInds
    rw [List.mem_flatMap]
    refine ⟨m, hm, ?_⟩
    rw [List.mem_map]
    refine ⟨i, ?_, rfl⟩
    rw [List.mem_filter]
    exact ⟨hi, by simp [ho]⟩
  have hcond : (truthy (some q) && !(i.nome_indicador == "")) = true := by
    simp [truthy, hq, hn]
  have hmc : matchCrit s (some q) none none i =
      (listOccurs (pyStripLower q) (pyStripLower i.nome_indicador) ||
       listOccurs (pyStripLower i.nome_indicador) (pyStripLower q)) := by
    unfold matchCrit
    simp [truthy, hq, hn]
  unfold compararMatched
  rw [List.mem_filter]
  constructor
  · rintro ⟨-, hp⟩
    rw [hmc] at hp
    rcases Bool.or_eq_true_iff.mp hp with h | h
    · exact Or.inl h
    · exact Or.inr h
  · intro h
    refine ⟨hmem, ?_⟩
    rw [hmc]
    rcases h with h | h
    · exact Bool.or_eq_true_iff.mpr (Or.inl h)
    · exact Bool.or_eq_true_iff.mpr (Or.inr h)

def c6Mun : Municipio := ⟨1, "Itanhaem", "SP", none, none⟩

def c6Ind : Indicador := ⟨1, 1, "Disponibilidade de Ponto", none, none, [], [], []⟩

def c6Store : Store := ⟨[c6Mun], [c6Ind], [], [], []⟩

theorem c6_name_match_bidirectional_witness :
    ((c6Mun, c6Ind) ∈ compararMatched c6Store (some "Indice de Disponibilidade de Ponto ") none none ↔
      (listOccurs (pyStripLower "Indice de Disponibilidade de Ponto ")
          (pyStripLower c6Ind.nome_indicador) = true ∨
       listOccurs (pyStripLower c6Ind.nome_indicador)
          (pyStripLower "Indice de Disponibilidade de Ponto ") = true)) ∧
    (c6Mun, c6Ind) ∈ compararMatched c6Store (some "Indice de Disponibilidade de Ponto ") none none := by
  have h := c6_name_match_bidirectional c6Store "Indice de Disponibilidade de Ponto "
    c6Mun c6Ind (by decide) (by decide) (by decide) (by decide) rfl
  exact ⟨h, h.mpr (Or.inr (by decide))⟩

/-! ## C5 — similarity groups: helper lemmas about the grouping dict -/

/-- Keys of the groups association list, in insertion order. -/
def keysOfG (gs : List (String × List GroupEntry)) : List String := gs.map Prod.fst

/-- Python `grupos[chave]` lookup (first — unique — matching key). -/
def lookupG (gs : List (String × List GroupEntry)) (v : String) :
    Option (List GroupEntry) :=
  (gs.find? (fun g => g.1 == v)).map Prod.snd

/-- The key column of a serialized formula snapshot. -/
def keyOfD : Criterio → FormulaDoc → Option String
  | .hash, fd => fd.hash
  | .formula, fd => fd.normalizada

lemma entryOf_key {s : Store} {f : Formula} {e : GroupEntry} (c : Criterio)
    (h : entryOf s f = some e) : keyOfD c e.formula = keyOf c f := by
  unfold entryOf at h
  cases hf : s.indicadores.find? (fun i => i.id == f.indicador_id) <;> rw [hf] at h
  · cases h
  · cases Option.some.inj h
    cases c <;> rfl

lemma map_fst_bump {gs : List (String × List GroupEntry)} {k : String} {en : GroupEntry} :
    (gs.map (fun g => if g.1 == k then (g.1, g.2 ++ [en]) else g)).map Prod.fst =
      gs.map Prod.fst := by
  induction gs with
  | nil => rfl
  | cons a t ih =>
    simp only [List.map_cons, ih]
    by_cases h : (a.1 == k) = true <;> simp [h]

lemma addToGroups_keys (gs : List (String × List GroupEntry)) (k : String)
    (e : Option GroupEntry) :
    keysOfG (addToGroups gs k e) =
      if gs.any (fun g => g.1 == k) then keysOfG gs else keysOfG gs ++ [k] := by
  unfold addToGroups keysOfG
  by_cases hany : (gs.any (fun g => g.1 == k)) = true
  · rw [if_pos hany, if_pos hany]
    cases e with
    | none => rfl
    | some en => exact map_fst_bump
  · rw [if_neg hany, if_neg hany]
    cases e with
    | none => simp
    | some en =>
      have := @map_fst_bump (gs ++ [(k, [])]) k en
      rw [this]
      simp

lemma addToGroups_keys_mem (gs : List (String × List GroupEntry)) (k : String)
    (e : Option GroupEntry) (v : String) :
    v ∈ keysOfG (addToGroups gs k e) ↔ v ∈ keysOfG gs ∨ v = k := by
  rw [addToGroups_keys]
  by_cases hany : (gs.any (fun g => g.1 == k)) = true
  · rw [if_pos hany]
    constructor
    · exact Or.inl
    · rintro (h | rfl)
      · exact h
      · obtain ⟨g, hg, hk⟩ := List.any_eq_true.mp hany
        exact List.mem_map.mpr ⟨g, hg, beq_iff_eq.mp hk⟩
  · rw [if_neg hany]
    unfold keysOfG
    simp [List.mem_append]

lemma find?_map_keyfix {gs : List (String × List GroupEntry)} {k v : String}
    {en : GroupEntry} :
    (gs.map (fun g => if g.1 == k then (g.1, g.2 ++ [en]) else g)).find?
        (fun g => g.1 == v) =
      (gs.find? (fun g => g.1 == v)).map
        (fun g => if g.1 == k then (g.1, g.2 ++ [en]) else g) := by
  induction gs with
  | nil => rfl
  | cons a t ih =>
    by_cases h : (a.1 == v) = true
    · have hfa : (((if a.1 == k then (a.1, a.2 ++ [en]) else a) : String × List GroupEntry).1
          == v) = true := by
        by_cases h2 : (a.1 == k) = true <;> simp [h2, h]
      rw [List.map_cons,
        List.find?_cons_of_pos (p := fun (g : String × List GroupEntry) => g.1 == v) _ hfa,
        List.find?_cons_of_pos (p := fun (g : String × List GroupEntry) => g.1 == v) _ h]
      rfl
    · have hfa : ¬(((if a.1 == k then (a.1, a.2 ++ [en]) else a) : String × List GroupEntry).1
          == v) = true := by
        by_cases h2 : (a.1 == k) = true <;> simp [h2, h]
      rw [List.map_cons,
        List.find?_cons_of_neg (p := fun (g : String × List GroupEntry) => g.1 == v) _ hfa,
        List.find?_cons_of_neg (p := fun (g : String × List GroupEntry) => g.1 == v) _ h]
      exact ih

lemma lookupG_addToGroups_self (gs : List (String × List GroupEntry)) (k : String)
    (e : Option GroupEntry) :
    lookupG (addToGroups gs k e) k = some ((lookupG gs k).getD [] ++ e.toList) := by
  unfold addToGroups lookupG
  by_cases hany : (gs.any (fun g => g.1 == k)) = true
  · rw [if_pos hany]
    have hsome : (gs.find? (fun g => g.1 == k)).isSome = true := by
      rw [List.find?_isSome]
      exact List.any_eq_true.mp hany
    obtain ⟨g0, hg0⟩ := Option.isSome_iff_exists.mp hsome
    have hk : (g0.1 == k) = true := List.find?_some (p := fun (g : String × List GroupEntry) => g.1 == k) hg0
    cases e with
    | none => rw [hg0]; simp
    | some en =>
      rw [find?_map_keyfix, hg0]
      have hk2 : g0.1 = k := beq_iff_eq.mp hk
      simp [hk2]
  · rw [if_neg hany]
    have hnone : gs.find? (fun g => g.1 == k) = none := by
      rw [List.find?_eq_none]
      intro g hg hk
      exact hany (List.any_eq_true.mpr ⟨g, hg, hk⟩)
    cases e with
    | none =>
      rw [List.find?_append, hnone]
      simp [hnone]
    | some en =>
      rw [find?_map_keyfix, List.find?_append, hnone]
      simp [hnone]

lemma lookupG_addToGroups_ne (gs : List (String × List GroupEntry)) (k v : String)
    (e : Option GroupEntry) (hvk : v ≠ k) :
    lookupG (addToGroups gs k e) v = lookupG gs v := by
  unfold addToGroups lookupG
  have happ : (gs ++ [((k : String), ([] : List GroupEntry))]).find? (fun g => g.1 == v) =
      gs.find? (fun g => g.1 == v) := by
    rw [List.find?_append]
    cases hf : gs.find? (fun g => g.1 == v) with
    | some g => rfl
    | none =>
      have : ((k, ([] : List GroupEntry)).1 == v) = false := by
        rw [beq_eq_false_iff_ne]
        exact fun h => hvk h.symm
      simp [this]
  have hmap : ∀ (l : List (String × List GroupEntry)) (en : GroupEntry),
      (l.find? (fun g => g.1 == v)).map
          (fun g => if g.1 == k then (g.1, g.2 ++ [en]) else g) =
        l.find? (fun g => g.1 == v) := by
    intro l en
    cases hf : l.find? (fun g => g.1 == v) with
    | none => rfl
    | some g =>
      have hgv : g.1 = v := beq_iff_eq.mp (List.find?_some (p := fun (g : String × List GroupEntry) => g.1 == v) hf)
      have hne2 : g.1 ≠ k := by rw [hgv]; exact hvk
      simp [hne2]
  by_cases hany : (gs.any (fun g => g.1 == k)) = true
  · rw [if_pos hany]
    cases e with
    | none => rfl
    | some en => rw [find?_map_keyfix, hmap]
  · rw [if_neg hany]
    cases e with
    | none => rw [happ]
    | some en => rw [find?_map_keyfix, happ, hmap]

/-- The members a run of the loop contributes under a given key: the entries
of the processed formulas carrying that key, in order, skipping unresolved
indicators. -/
def entriesForKey (s : Store) (c : Criterio) (v : String) (fs : List Formula) :
    List GroupEntry :=
  (fs.filter (fun f => theKey c f == v)).filterMap (entryOf s)

lemma entriesForKey_cons_pos {s : Store} {c : Criterio} {v : String} {f : Formula}
    {r : List Formula} (h : (theKey c f == v) = true) :
    entriesForKey s c v (f :: r) = (entryOf s f).toList ++ entriesForKey s c v r := by
  unfold entriesForKey
  rw [List.filter_cons_of_pos (p := fun (f : Formula) => theKey c f == v) h, List.filterMap_cons]
  cases entryOf s f <;> simp

lemma entriesForKey_cons_neg {s : Store} {c : Criterio} {v : String} {f : Formula}
    {r : List Formula} (h : ¬(theKey c f == v) = true) :
    entriesForKey s c v (f :: r) = entriesForKey s c v r := by
  unfold entriesForKey
  rw [List.filter_cons_of_neg (p := fun (f : Formula) => theKey c f == v) h]

lemma foldl_groups_lookup (s : Store) (c : Criterio) :
    ∀ (fs : List Formula) (gs : List (String × List GroupEntry)) (v : String),
      lookupG (fs.foldl (fun gs f => addToGroups gs (theKey c f) (entryOf s f)) gs) v =
        match lookupG gs v with
        | some es => some (es ++ entriesForKey s c v fs)
        | none =>
          if fs.any (fun f => theKey c f == v) then some (entriesForKey s c v fs)
          else none := by
  intro fs
  induction fs with
  | nil =>
    intro gs v
    cases h : lookupG gs v <;> simp [entriesForKey, h]
  | cons f r ih =>
    intro gs v
    rw [List.foldl_cons, ih]
    by_cases hk : (theKey c f == v) = true
    · have hveq : theKey c f = v := beq_iff_eq.mp hk
      subst hveq
      rw [lookupG_addToGroups_self, entriesForKey_cons_pos hk]
      cases hl : lookupG gs (theKey c f) with
      | some es => simp [hl, List.append_assoc, List.any_cons, hk]
      | none => simp [hl, List.any_cons, hk]
    · have hne : v ≠ theKey c f := by
        intro h
        exact hk (beq_iff_eq.mpr h.symm)
      rw [lookupG_addToGroups_ne _ _ _ _ hne, entriesForKey_cons_neg hk]
      cases hl : lookupG gs v with
      | some es => simp [hl]
      | none => simp [hl, List.any_cons, Bool.eq_false_iff.mpr hk]

lemma foldl_groups_keys_mem (s : Store) (c : Criterio) :
    ∀ (fs : List Formula) (gs : List (String × List GroupEntry)) (v : String),
      v ∈ keysOfG (fs.foldl (fun gs f => addToGroups gs (theKey c f) (entryOf s f)) gs) ↔
        v ∈ keysOfG gs ∨ ∃ f ∈ fs, theKey c f = v := by
  intro fs
  induction fs with
  | nil => intro gs v; simp
  | cons f r ih =>
    intro gs v
    rw [List.foldl_cons, ih, addToGroups_keys_mem]
    constructor
    · rintro ((h | rfl) | ⟨f2, hf2, hkey⟩)
      · exact Or.inl h
      · exact Or.inr ⟨f, List.mem_cons_self _ _, rfl⟩
      · exact Or.inr ⟨f2, List.mem_cons_of_mem _ hf2, hkey⟩
    · rintro (h | ⟨f2, hf2, hkey⟩)
      · exact Or.inl (Or.inl h)
      · rcases List.mem_cons.mp hf2 with rfl | hmem
        · exact Or.inl (Or.inr hkey.symm)
        · exact Or.inr ⟨f2, hmem, hkey⟩

lemma foldl_groups_keys_nodup (s : Store) (c : Criterio) :
    ∀ (fs : List Formula) (gs : List (String × List GroupEntry)),
      (keysOfG gs).Nodup →
      (keysOfG (fs.foldl (fun gs f => addToGroups gs (theKey c f) (entryOf s f)) gs)).Nodup := by
  intro fs
  induction fs with
  | nil => intro gs h; exact h
  | cons f r ih =>
    intro gs h
    rw [List.foldl_cons]
    apply ih
    rw [addToGroups_keys]
    by_cases hany : (gs.any (fun g => g.1 == theKey c f)) = true
    · rw [if_pos hany]; exact h
    · rw [if_neg hany]
      rw [List.nodup_append]
      refine ⟨h, List.nodup_singleton _, ?_⟩
      intro x hx hxk
      rw [List.mem_singleton] at hxk
      subst hxk
      obtain ⟨g, hg, hgk⟩ := List.mem_map.mp hx
      exact hany (List.any_eq_true.mpr ⟨g, hg, beq_iff_eq.mpr hgk⟩)

lemma lookup_of_mem_nodup {v : String} {es : List GroupEntry} :
    ∀ (gs : List (String × List GroupEntry)), (keysOfG gs).Nodup →
      (v, es) ∈ gs → lookupG gs v = some es := by
  intro gs
  induction gs with
  | nil => intro _ hm; cases hm
  | cons a t ih =>
    intro hnd hm
    have hnd2 := List.nodup_cons.mp hnd
    unfold lookupG
    rcases List.mem_cons.mp hm with rfl | hmem
    · rw [List.find?_cons_of_pos _ (by simp)]
      rfl
    · have hne : (a.1 == v) = false := by
        rw [beq_eq_false_iff_ne]
        intro hav
        exact hnd2.1 (hav ▸ List.mem_map.mpr ⟨(v, es), hmem, rfl⟩)
      rw [List.find?_cons_of_neg _ (by simp [hne])]
      exact ih hnd2.2 hmem

lemma joined_mem_iff {s : Store} {c : Criterio} {f : Formula} :
    f ∈ joinedFormulas s c ↔
      f ∈ s.formulas ∧ ∃ v, keyOf c f = some v ∧ 1 < countVal s c v := by
  unfold joinedFormulas
  rw [List.mem_filter]
  constructor
  · rintro ⟨hf, hp⟩
    refine ⟨hf, ?_⟩
    cases hk : keyOf c f with
    | none => rw [hk] at hp; cases hp
    | some w =>
      rw [hk] at hp
      exact ⟨w, rfl, of_decide_eq_true hp⟩
  · rintro ⟨hf, w, hw, hcount⟩
    refine ⟨hf, ?_⟩
    rw [hw]
    exact decide_eq_true hcount

lemma semelhantes_keys_iff (s : Store) (c : Criterio) (v : String) :
    v ∈ keysOfG (semelhantes s c) ↔ 2 ≤ countVal s c v := by
  unfold semelhantes
  rw [foldl_groups_keys_mem]
  constructor
  · rintro (h | ⟨f, hf, hkey⟩)
    · simp [keysOfG] at h
    · obtain ⟨hfs, w, hw, hcount⟩ := joined_mem_iff.mp hf
      have hwv : w = v := by
        rw [← hkey]
        unfold theKey
        rw [hw]
        rfl
      subst hwv
      omega
  · intro h2
    have hpos : 0 < (s.formulas.filter (fun f => keyOf c f == some v)).length := by
      have : countVal s c v = (s.formulas.filter (fun f => keyOf c f == some v)).length := rfl
      omega
    obtain ⟨f, hf⟩ := List.exists_mem_of_length_pos hpos
    have hmf := List.mem_filter.mp hf
    have hkey : keyOf c f = some v := beq_iff_eq.mp hmf.2
    refine Or.inr ⟨f, ?_, ?_⟩
    · exact joined_mem_iff.mpr ⟨hmf.1, v, hkey, by omega⟩
    · unfold theKey
      rw [hkey]
      rfl

lemma semelhantes_lookup (s : Store) (c : Criterio) (v : String) :
    lookupG (semelhantes s c) v =
      if (joinedFormulas s c).any (fun f => theKey c f == v) then
        some (entriesForKey s c v (joinedFormulas s c))
      else none := by
  unfold semelhantes
  rw [foldl_groups_lookup]
  rfl

lemma entriesForKey_joined (s : Store) (c : Criterio) (v : String)
    (h2 : 2 ≤ countVal s c v) :
    entriesForKey s c v (joinedFormulas s c) =
      (s.formulas.filter (fun f => keyOf c f == some v)).filterMap (entryOf s) := by
  unfold entriesForKey joinedFormulas
  rw [List.filter_filter]
  congr 1
  apply List.filter_congr
  intro f _
  cases hk : keyOf c f with
  | none => simp [theKey, hk]
  | some w =>
    by_cases hwv : w = v
    · subst hwv
      have h1 : 1 < countVal s c w := by omega
      simp [theKey, hk, h1]
    · simp [theKey, hk, hwv]

lemma semelhantes_nodup_keys (s : Store) (c : Criterio) :
    (keysOfG (semelhantes s c)).Nodup := by
  unfold semelhantes
  exact foldl_groups_keys_nodup s c _ [] (by simp [keysOfG])

lemma semelhantes_content (s : Store) (c : Criterio) {v : String}
    {es : List GroupEntry} (hmem : (v, es) ∈ semelhantes s c) :
    es = (s.formulas.filter (fun f => keyOf c f == some v)).filterMap (entryOf s) := by
  have h2 : 2 ≤ countVal s c v :=
    (semelhantes_keys_iff s c v).mp (List.mem_map.mpr ⟨(v, es), hmem, rfl⟩)
  have hl := lookup_of_mem_nodup _ (semelhantes_nodup_keys s c) hmem
  rw [semelhantes_lookup] at hl
  by_cases hany : ((joinedFormulas s c).any (fun f => theKey c f == v)) = true
  · rw [if_pos hany] at hl
    rw [← entriesForKey_joined s c v h2]
    exact (Option.some.inj hl).symm
  · rw [if_neg hany] at hl
    cases hl

lemma entryOf_isSome_of_fk {s : Store} {f : Formula}
    (hfk : s.formulas.all (fun f => s.indicadores.any (fun i => i.id == f.indicador_id)) = true)
    (hf : f ∈ s.formulas) : (entryOf s f).isSome = true := by
  unfold entryOf
  obtain ⟨i, hi, hid⟩ := List.any_eq_true.mp (List.all_eq_true.mp hfk f hf)
  cases hfind : s.indicadores.find? (fun i2 => i2.id == f.indicador_id) with
  | some _ => rfl
  | none => exact absurd hid (List.find?_eq_none.mp hfind i hi)

lemma filterMap_length_of_isSome {α β : Type} {h : α → Option β} :
    ∀ (l : List α), (∀ a ∈ l, (h a).isSome = true) →
      (l.filterMap h).length = l.length := by
  intro l
  induction l with
  | nil => intro _; rfl
  | cons a t ih =>
    intro hall
    rw [List.filterMap_cons]
    cases hha : h a with
    | none =>
      have := hall a (List.mem_cons_self _ _)
      rw [hha] at this
      cases this
    | some b => simp [ih (fun x hx => hall x (List.mem_cons_of_mem _ hx))]

/-- C5: for a store with intact formula-to-indicator foreign keys, the
similar-groups operation partitions exactly the Formula rows whose chosen
key is non-null into groups of 2 or more keyed by the shared value: the
group keys are exactly the values shared by at least two rows, each key has
one group, a group's members are exactly the entries of the rows carrying
its key (so each group has as many members as rows sharing the value), a
row with a null key contributes to no group, a row with a unique key
contributes to no group, and two rows sharing a key appear together in the
one group keyed by it. -/
theorem c5_similar_groups_partition (s : Store) (c : Criterio)
    (hfk : s.formulas.all (fun f => s.indicadores.any (fun i => i.id == f.indicador_id)) = true) :
    ((semelhantes s c).map Prod.fst).Nodup ∧
    (∀ v, v ∈ (semelhantes s c).map Prod.fst ↔ 2 ≤ countVal s c v) ∧
    (∀ v es, (v, es) ∈ semelhantes s c →
      es = (s.formulas.filter (fun f => keyOf c f == some v)).filterMap (entryOf s) ∧
      es.length = countVal s c v) ∧
    (∀ f ∈ s.formulas, keyOf c f = none →
      ∀ g ∈ semelhantes s c, ∀ e, entryOf s f = some e → e ∉ g.2) ∧
    (∀ f ∈ s.formulas, ∀ v, keyOf c f = some v → countVal s c v = 1 →
      ∀ g ∈ semelhantes s c, ∀ e, entryOf s f = some e → e ∉ g.2) ∧
    (∀ f1 f2, f1 ∈ s.formulas → f2 ∈ s.formulas → f1 ≠ f2 → ∀ v,
      keyOf c f1 = some v → keyOf c f2 = some v →
      ∃ es, (v, es) ∈ semelhantes s c ∧
        (∀ e1, entryOf s f1 = some e1 → e1 ∈ es) ∧
        (∀ e2, entryOf s f2 = some e2 → e2 ∈ es)) := by
  have hcontent : ∀ v es, (v, es) ∈ semelhantes s c →
      es = (s.formulas.filter (fun f => keyOf c f == some v)).filterMap (entryOf s) :=
    fun v es hm => semelhantes_content s c hm
  have hentry_in : ∀ {g : String × List GroupEntry}, g ∈ semelhantes s c →
      ∀ {e}, e ∈ g.2 → keyOfD c e.formula = some g.1 := by
    intro g hg e he
    have := hcontent g.1 g.2 hg
    rw [this] at he
    obtain ⟨f2, hf2, hef2⟩ := List.mem_filterMap.mp he
    have hkey : keyOf c f2 = some g.1 := beq_iff_eq.mp (List.mem_filter.mp hf2).2
    rw [entryOf_key c hef2]
    exact hkey
  refine ⟨semelhantes_nodup_keys s c, fun v => semelhantes_keys_iff s c v, ?_, ?_, ?_, ?_⟩
  · intro v es hmem
    refine ⟨hcontent v es hmem, ?_⟩
    rw [hcontent v es hmem]
    rw [filterMap_length_of_isSome _ (fun f hf =>
      entryOf_isSome_of_fk hfk (List.mem_filter.mp hf).1)]
    rfl
  · intro f _ hnull g hg e hef he
    have := hentry_in hg he
    rw [entryOf_key c hef, hnull] at this
    cases this
  · intro f _ v hv hcount g hg e hef he
    have hkey := hentry_in hg he
    rw [entryOf_key c hef, hv] at hkey
    cases Option.some.inj hkey
    have h2 : 2 ≤ countVal s c g.1 :=
      (semelhantes_keys_iff s c g.1).mp (List.mem_map.mpr ⟨g, hg, rfl⟩)
    omega
  · intro f1 f2 hf1 hf2 hne v hv1 hv2
    have hmemf1 : f1 ∈ s.formulas.filter (fun f => keyOf c f == some v) :=
      List.mem_filter.mpr ⟨hf1, beq_iff_eq.mpr hv1⟩
    have hmemf2 : f2 ∈ s.formulas.filter (fun f => keyOf c f == some v) :=
      List.mem_filter.mpr ⟨hf2, beq_iff_eq.mpr hv2⟩
    have h2 : 2 ≤ countVal s c v := two_le_length_of_mem_ne hmemf1 hmemf2 hne
    have hkv : v ∈ keysOfG (semelhantes s c) := (semelhantes_keys_iff s c v).mpr h2
    obtain ⟨g, hg, hgv⟩ := List.mem_map.mp hkv
    obtain ⟨gv, ges⟩ := g
    cases hgv
    refine ⟨ges, hg, ?_, ?_⟩
    · intro e1 he1
      rw [hcontent _ _ hg]
      exact List.mem_filterMap.mpr ⟨f1, hmemf1, he1⟩
    · intro e2 he2
      rw [hcontent _ _ hg]
      exact List.mem_filterMap.mpr ⟨f2, hmemf2, he2⟩

def c5Store : Store :=
  { municipios := [⟨1, "Santos", "SP", none, none⟩, ⟨2, "Niteroi", "RJ", none, none⟩]
    indicadores := [⟨1, 1, "I1", none, none, [], [], []⟩, ⟨2, 1, "I2", none, none, [], [], []⟩,
                    ⟨3, 2, "I3", none, none, [], [], []⟩, ⟨4, 2, "I4", none, none, [], [], []⟩]
    formulas := [⟨1, 1, some "a", some "a", some "h"⟩, ⟨2, 2, some "b", some "b", some "h"⟩,
                 ⟨3, 3, some "c", some "c", some "u"⟩, ⟨4, 4, some "d", some "d", none⟩]
    subindicadores := []
    condicoes := [] }

theorem c5_similar_groups_partition_witness :
    (c5Store.formulas.all
      (fun f => c5Store.indicadores.any (fun i => i.id == f.indicador_id)) = true) ∧
    (((semelhantes c5Store .hash).map Prod.fst).Nodup ∧
     (∀ v, v ∈ (semelhantes c5Store .hash).map Prod.fst ↔ 2 ≤ countVal c5Store .hash v) ∧
     (∀ v es, (v, es) ∈ semelhantes c5Store .hash →
       es = (c5Store.formulas.filter (fun f => keyOf .hash f == some v)).filterMap
              (entryOf c5Store) ∧
       es.length = countVal c5Store .hash v) ∧
     (∀ f ∈ c5Store.formulas, keyOf .hash f = none →
       ∀ g ∈ semelhantes c5Store .hash, ∀ e, entryOf c5Store f = some e → e ∉ g.2) ∧
     (∀ f ∈ c5Store.formulas, ∀ v, keyOf .hash f = some v → countVal c5Store .hash v = 1 →
       ∀ g ∈ semelhantes c5Store .hash, ∀ e, entryOf c5Store f = some e → e ∉ g.2) ∧
     (∀ f1 f2, f1 ∈ c5Store.formulas → f2 ∈ c5Store.formulas → f1 ≠ f2 → ∀ v,
       keyOf .hash f1 = some v → keyOf .hash f2 = some v →
       ∃ es, (v, es) ∈ semelhantes c5Store .hash ∧
         (∀ e1, entryOf c5Store f1 = some e1 → e1 ∈ es) ∧
         (∀ e2, entryOf c5Store f2 = some e2 → e2 ∈ es))) :=
  ⟨by decide, c5_similar_groups_partition c5Store .hash (by decide)⟩

/-! ## C2 — export after import: round trip -/

def emptyStore : Store := ⟨[], [], [], [], []⟩

lemma condMap_id : ∀ (cs : List CondDoc),
    cs.map (fun c => ({ regra := c.regra, nota := c.nota } : CondDoc)) = cs := by
  intro cs
  induction cs with
  | nil => rfl
  | cons a t ih => cases a; simp [ih]

lemma buildInd_canonical {i : IndDoc} (hc : IndDoc.canonicalB i = true) :
    ∃ p, buildInd i = .ok p ∧ pindToDoc p = i ∧
      p.subindicadores.all (fun sb => sb.nome.isSome) = true := by
  obtain ⟨ni, no, de, un, tg, ob, inc, fo, sb, co⟩ := i
  unfold IndDoc.canonicalB at hc
  simp only [Bool.and_eq_true] at hc
  obtain ⟨⟨⟨⟨⟨⟨hA, hB⟩, hC⟩, hD⟩, hE⟩, hF⟩, hG⟩ := hc
  cases ni with
  | none => cases hA
  | some s =>
  have hs : s ≠ "" := of_decide_eq_true hA
  cases no with
  | some x => cases hB
  | none =>
  obtain ⟨tgl, rfl⟩ := Option.isSome_iff_exists.mp hC
  obtain ⟨obl, rfl⟩ := Option.isSome_iff_exists.mp hD
  obtain ⟨incl, rfl⟩ := Option.isSome_iff_exists.mp hE
  cases co with
  | dict gs => cases hG
  | other => cases hG
  | list cs =>
  refine ⟨{ nome_indicador := s, descricao := de, unidade := un, tags := tgl
            observacoes := obl, inconsistencias := incl, formula := fo
            subindicadores := sb, condicoes := condsOfField (.list cs) }, ?_, ?_, hF⟩
  · unfold buildInd pyOr
    simp [hs]
  · unfold pindToDoc
    simp [condsOfField, condMap_id]

lemma buildInds_canonical :
    ∀ (docs : List IndDoc), docs.all IndDoc.canonicalB = true →
      ∃ ps, buildInds docs = .ok ps ∧ ps.map pindToDoc = docs ∧
        subsNotNullOk ps = true := by
  intro docs
  induction docs with
  | nil => exact fun _ => ⟨[], rfl, rfl, rfl⟩
  | cons a t ih =>
    intro hall
    rw [List.all_cons, Bool.and_eq_true] at hall
    obtain ⟨p, hp, hpd, hpsub⟩ := buildInd_canonical hall.1
    obtain ⟨ps, hps, hmap, hsubs⟩ := ih hall.2
    refine ⟨p :: ps, ?_, ?_, ?_⟩
    · unfold buildInds; rw [hp, hps]
    · simp [hpd, hmap]
    · show ((p :: ps).all _) = true
      rw [List.all_cons, Bool.and_eq_true]
      exact ⟨hpsub, hsubs⟩

lemma mkFormulaRows_mem {fa ia : Nat} {fo : Option FormulaDoc} {f : Formula}
    (h : f ∈ mkFormulaRows fa ia fo) : f.indicador_id = ia := by
  cases fo with
  | none => cases h
  | some fd =>
    rcases List.mem_singleton.mp h with rfl
    rfl

lemma mkSubRows_mem : ∀ (l : List SubDoc) (sa ia : Nat) {x : Subindicador},
    x ∈ mkSubRows sa ia l → x.indicador_id = ia := by
  intro l
  induction l with
  | nil => intro sa ia x h; cases h
  | cons a t ih =>
    intro sa ia x h
    rcases List.mem_cons.mp h with rfl | h2
    · rfl
    · exact ih (sa + 1) ia h2

lemma mkCondRows_mem : ∀ (l : List CondDoc) (ca ia : Nat) {x : Condicao},
    x ∈ mkCondRows ca ia l → x.indicador_id = ia := by
  intro l
  induction l with
  | nil => intro ca ia x h; cases h
  | cons a t ih =>
    intro ca ia x h
    rcases List.mem_cons.mp h with rfl | h2
    · rfl
    · exact ih (ca + 1) ia h2

lemma mkSubRows_read : ∀ (l : List SubDoc) (sa ia : Nat),
    (mkSubRows sa ia l).map
      (fun x => ({ nome := x.nome, descricao := x.descricao } : SubDoc)) = l := by
  intro l
  induction l with
  | nil => intro sa ia; rfl
  | cons a t ih =>
    intro sa ia
    cases a
    simp [mkSubRows, ih]

lemma mkCondRows_read : ∀ (l : List CondDoc) (ca ia : Nat),
    (mkCondRows ca ia l).map
      (fun x => ({ regra := x.regra, nota := x.nota } : CondDoc)) = l := by
  intro l
  induction l with
  | nil => intro ca ia; rfl
  | cons a t ih =>
    intro ca ia
    cases a
    simp [mkCondRows, ih]

lemma commitInds_nil (mid ia fa sa ca : Nat) :
    commitInds mid ia fa sa ca [] = ⟨[], [], [], []⟩ := rfl

lemma commitInds_cons (mid ia fa sa ca : Nat) (p : PInd) (rest : List PInd) :
    commitInds mid ia fa sa ca (p :: rest) =
      ⟨{ id := ia, municipio_id := mid, nome_indicador := p.nome_indicador
         descricao := p.descricao, unidade := p.unidade
         tags := p.tags, observacoes := p.observacoes
         inconsistencias := p.inconsistencias } ::
         (commitInds mid (ia + 1) (fa + (mkFormulaRows fa ia p.formula).length)
           (sa + (mkSubRows sa ia p.subindicadores).length)
           (ca + (mkCondRows ca ia p.condicoes).length) rest).inds,
       mkFormulaRows fa ia p.formula ++
         (commitInds mid (ia + 1) (fa + (mkFormulaRows fa ia p.formula).length)
           (sa + (mkSubRows sa ia p.subindicadores).length)
           (ca + (mkCondRows ca ia p.condicoes).length) rest).formulas,
       mkSubRows sa ia p.subindicadores ++
         (commitInds mid (ia + 1) (fa + (mkFormulaRows fa ia p.formula).length)
           (sa + (mkSubRows sa ia p.subindicadores).length)
           (ca + (mkCondRows ca ia p.condicoes).length) rest).subs,
       mkCondRows ca ia p.condicoes ++
         (commitInds mid (ia + 1) (fa + (mkFormulaRows fa ia p.formula).length)
           (sa + (mkSubRows sa ia p.subindicadores).length)
           (ca + (mkCondRows ca ia p.condicoes).length) rest).conds⟩ := rfl

lemma commitInds_bounds : ∀ (ps : List PInd) (mid ia fa sa ca : Nat),
    (∀ x ∈ (commitInds mid ia fa sa ca ps).inds, ia ≤ x.id ∧ x.municipio_id = mid) ∧
    (∀ x ∈ (commitInds mid ia fa sa ca ps).formulas, ia ≤ x.indicador_id) ∧
    (∀ x ∈ (commitInds mid ia fa sa ca ps).subs, ia ≤ x.indicador_id) ∧
    (∀ x ∈ (commitInds mid ia fa sa ca ps).conds, ia ≤ x.indicador_id) := by
  intro ps
  induction ps with
  | nil =>
    intro mid ia fa sa ca
    rw [commitInds_nil]
    refine ⟨?_, ?_, ?_, ?_⟩ <;> intro x h <;> cases h
  | cons p rest ih =>
    intro mid ia fa sa ca
    rw [commitInds_cons]
    obtain ⟨ih1, ih2, ih3, ih4⟩ := ih mid (ia + 1) (fa + (mkFormulaRows fa ia p.formula).length)
      (sa + (mkSubRows sa ia p.subindicadores).length)
      (ca + (mkCondRows ca ia p.condicoes).length)
    refine ⟨?_, ?_, ?_, ?_⟩
    · intro x h
      rcases List.mem_cons.mp h with rfl | h2
      · exact ⟨Nat.le_refl _, rfl⟩
      · obtain ⟨h3, h4⟩ := ih1 x h2
        exact ⟨Nat.le_of_succ_le h3, h4⟩
    · intro x h
      rcases List.mem_append.mp h with h2 | h2
      · exact Nat.le_of_eq (mkFormulaRows_mem h2).symm
      · exact Nat.le_of_succ_le (ih2 x h2)
    · intro x h
      rcases List.mem_append.mp h with h2 | h2
      · exact Nat.le_of_eq (mkSubRows_mem _ _ _ h2).symm
      · exact Nat.le_of_succ_le (ih3 x h2)
    · intro x h
      rcases List.mem_append.mp h with h2 | h2
      · exact Nat.le_of_eq (mkCondRows_mem _ _ _ h2).symm
      · exact Nat.le_of_succ_le (ih4 x h2)

lemma commit_readback : ∀ (ps : List PInd) (mid ia fa sa ca : Nat)
    (FO : List Formula) (SO : List Subindicador) (CO : List Condicao),
    (∀ f ∈ FO, f.indicador_id < ia) → (∀ x ∈ SO, x.indicador_id < ia) →
    (∀ x ∈ CO, x.indicador_id < ia) →
    (commitInds mid ia fa sa ca ps).inds.map
      (exportIndLists (FO ++ (commitInds mid ia fa sa ca ps).formulas)
        (SO ++ (commitInds mid ia fa sa ca ps).subs)
        (CO ++ (commitInds mid ia fa sa ca ps).conds)) = ps.map pindToDoc := by
  intro ps
  induction ps with
  | nil => intro mid ia fa sa ca FO SO CO _ _ _; rw [commitInds_nil]; rfl
  | cons p rest ih =>
    intro mid ia fa sa ca FO SO CO hFO hSO hCO
    rw [commitInds_cons]
    have hbounds := commitInds_bounds rest mid (ia + 1)
      (fa + (mkFormulaRows fa ia p.formula).length)
      (sa + (mkSubRows sa ia p.subindicadores).length)
      (ca + (mkCondRows ca ia p.condicoes).length)
    rw [List.map_cons, List.map_cons]
    congr 1
    · -- head: reading the freshly inserted indicator row back gives the doc
      unfold exportIndLists
      have hFOn : FO.find? (fun f => f.indicador_id == ia) = none := by
        rw [List.find?_eq_none]
        intro f hf
        simp only [beq_iff_eq]
        exact Nat.ne_of_lt (hFO f hf)
      have hrn : (commitInds mid (ia + 1) (fa + (mkFormulaRows fa ia p.formula).length)
          (sa + (mkSubRows sa ia p.subindicadores).length)
          (ca + (mkCondRows ca ia p.condicoes).length) rest).formulas.find?
          (fun f => f.indicador_id == ia) = none := by
        rw [List.find?_eq_none]
        intro f hf
        have := hbounds.2.1 f hf
        simp only [beq_iff_eq]
        omega
      have hfo : (FO ++ (mkFormulaRows fa ia p.formula ++
          (commitInds mid (ia + 1) (fa + (mkFormulaRows fa ia p.formula).length)
            (sa + (mkSubRows sa ia p.subindicadores).length)
            (ca + (mkCondRows ca ia p.condicoes).length) rest).formulas)).find?
            (fun f => f.indicador_id == ia) =
          (mkFormulaRows fa ia p.formula).find? (fun f => f.indicador_id == ia) := by
        rw [List.find?_append, hFOn, Option.none_or, List.find?_append, hrn, Option.or_none]
      have hsub : (SO ++ (mkSubRows sa ia p.subindicadores ++
          (commitInds mid (ia + 1) (fa + (mkFormulaRows fa ia p.formula).length)
            (sa + (mkSubRows sa ia p.subindicadores).length)
            (ca + (mkCondRows ca ia p.condicoes).length) rest).subs)).filter
            (fun x => x.indicador_id == ia) = mkSubRows sa ia p.subindicadores := by
        rw [List.filter_append, List.filter_append]
        have h1 : SO.filter (fun x => x.indicador_id == ia) = [] := by
          rw [List.filter_eq_nil_iff]
          intro x hx
          simp only [beq_iff_eq]
          exact Nat.ne_of_lt (hSO x hx)
        have h2 : (mkSubRows sa ia p.subindicadores).filter
            (fun x => x.indicador_id == ia) = mkSubRows sa ia p.subindicadores := by
          rw [List.filter_eq_self]
          intro x hx
          simp only [beq_iff_eq]
          exact mkSubRows_mem _ _ _ hx
        have h3 : (commitInds mid (ia + 1) (fa + (mkFormulaRows fa ia p.formula).length)
            (sa + (mkSubRows sa ia p.subindicadores).length)
            (ca + (mkCondRows ca ia p.condicoes).length) rest).subs.filter
            (fun x => x.indicador_id == ia) = [] := by
          rw [List.filter_eq_nil_iff]
          intro x hx
          have := hbounds.2.2.1 x hx
          simp only [beq_iff_eq]
          omega
        rw [h1, h2, h3]
        simp
      have hcond : (CO ++ (mkCondRows ca ia p.condicoes ++
          (commitInds mid (ia + 1) (fa + (mkFormulaRows fa ia p.formula).length)
            (sa + (mkSubRows sa ia p.subindicadores).length)
            (ca + (mkCondRows ca ia p.condicoes).length) rest).conds)).filter
            (fun x => x.indicador_id == ia) = mkCondRows ca ia p.condicoes := by
        rw [List.filter_append, List.filter_append]
        have h1 : CO.filter (fun x => x.indicador_id == ia) = [] := by
          rw [List.filter_eq_nil_iff]
          intro x hx
          simp only [beq_iff_eq]
          exact Nat.ne_of_lt (hCO x hx)
        have h2 : (mkCondRows ca ia p.condicoes).filter
            (fun x => x.indicador_id == ia) = mkCondRows ca ia p.condicoes := by
          rw [List.filter_eq_self]
          intro x hx
          simp only [beq_iff_eq]
          exact mkCondRows_mem _ _ _ hx
        have h3 : (commitInds mid (ia + 1) (fa + (mkFormulaRows fa ia p.formula).length)
            (sa + (mkSubRows sa ia p.subindicadores).length)
            (ca + (mkCondRows ca ia p.condicoes).length) rest).conds.filter
            (fun x => x.indicador_id == ia) = [] := by
          rw [List.filter_eq_nil_iff]
          intro x hx
          have := hbounds.2.2.2 x hx
          simp only [beq_iff_eq]
          omega
        rw [h1, h2, h3]
        simp
      rw [hfo, hsub, hcond]
      unfold pindToDoc
      cases hpf : p.formula with
      | none =>
        simp [mkFormulaRows, mkSubRows_read, mkCondRows_read]
      | some fd =>
        cases fd
        simp [mkFormulaRows, mkSubRows_read, mkCondRows_read]
    · -- tail: apply the induction hypothesis over the grown old tables
      rw [← List.append_assoc, ← List.append_assoc, ← List.append_assoc]
      apply ih
      · intro f hf
        rcases List.mem_append.mp hf with h2 | h2
        · exact Nat.lt_succ_of_lt (hFO f h2)
        · exact Nat.lt_succ_of_le (Nat.le_of_eq (mkFormulaRows_mem h2))
      · intro x hx
        rcases List.mem_append.mp hx with h2 | h2
        · exact Nat.lt_succ_of_lt (hSO x h2)
        · exact Nat.lt_succ_of_le (Nat.le_of_eq (mkSubRows_mem _ _ _ h2))
      · intro x hx
        rcases List.mem_append.mp hx with h2 | h2
        · exact Nat.lt_succ_of_lt (hCO x h2)
        · exact Nat.lt_succ_of_le (Nat.le_of_eq (mkCondRows_mem _ _ _ h2))

/-- C2 (amended): for canonical documents — the shape the exporter itself
emits: indicator names under `nome_indicador` (non-empty), list fields
present, named sub-indicator entries, `condicoes` in flat-list form — and a
store with intact foreign keys not already holding the document's key tuple,
exporting the Municipality created by the import reproduces the document
exactly, including all nested formula, sub-indicator and condition data. -/
theorem c2_roundtrip_canonical (s : Store) (d : Doc)
    (hfk : s.fkOkB = true) (hcan : d.canonicalB = true)
    (hdup : dupIn s d = false) :
    roundTrip s d = some d := by
  unfold Store.fkOkB at hfk
  simp only [Bool.and_eq_true] at hfk
  obtain ⟨⟨⟨hfkInd, hfkFor⟩, hfkSub⟩, hfkCond⟩ := hfk
  obtain ⟨ps, hps, hmap, hsubs⟩ := buildInds_canonical d.indicadores hcan
  have himp : importar s d = .ok
      { municipios := s.municipios ++
          [{ id := s.freshMunId, municipio := d.municipio, uf := d.uf
             edital := d.edital, ano_edital := d.ano_edital }]
        indicadores := s.indicadores ++
          (commitInds s.freshMunId s.freshIndId s.freshFormulaId s.freshSubId s.freshCondId ps).inds
        formulas := s.formulas ++
          (commitInds s.freshMunId s.freshIndId s.freshFormulaId s.freshSubId s.freshCondId ps).formulas
        subindicadores := s.subindicadores ++
          (commitInds s.freshMunId s.freshIndId s.freshFormulaId s.freshSubId s.freshCondId ps).subs
        condicoes := s.condicoes ++
          (commitInds s.freshMunId s.freshIndId s.freshFormulaId s.freshSubId s.freshCondId ps).conds } := by
    unfold importar
    rw [hdup]
    simp only [Bool.false_eq_true, if_false, hps, hsubs, if_true]
  unfold roundTrip
  rw [himp]
  show exportar _ s.freshMunId = some d
  unfold exportar
  have hfind : ((s.municipios ++
      ([{ id := s.freshMunId, municipio := d.municipio, uf := d.uf
          edital := d.edital, ano_edital := d.ano_edital }] : List Municipio)).find?
        (fun m => m.id == s.freshMunId)) = some
      { id := s.freshMunId, municipio := d.municipio, uf := d.uf
        edital := d.edital, ano_edital := d.ano_edital } := by
    rw [List.find?_append]
    have h1 : s.municipios.find? (fun m => m.id == s.freshMunId) = none := by
      rw [List.find?_eq_none]
      intro m hm
      simp only [beq_iff_eq]
      exact Nat.ne_of_lt (freshId_gt _ m.id (List.mem_map.mpr ⟨m, hm, rfl⟩))
    rw [h1, Option.none_or]
    simp
  rw [hfind]
  have hfilter : ((s.indicadores ++
      (commitInds s.freshMunId s.freshIndId s.freshFormulaId s.freshSubId s.freshCondId ps).inds).filter
        (fun i => i.municipio_id == s.freshMunId)) =
      (commitInds s.freshMunId s.freshIndId s.freshFormulaId s.freshSubId s.freshCondId ps).inds := by
    rw [List.filter_append]
    have h1 : s.indicadores.filter (fun i => i.municipio_id == s.freshMunId) = [] := by
      rw [List.filter_eq_nil_iff]
      intro i hi
      obtain ⟨m, hm, hmi⟩ := List.any_eq_true.mp (List.all_eq_true.mp hfkInd i hi)
      have hieq : i.municipio_id = m.id := (beq_iff_eq.mp hmi).symm
      simp only [beq_iff_eq]
      rw [hieq]
      exact Nat.ne_of_lt (freshId_gt _ m.id (List.mem_map.mpr ⟨m, hm, rfl⟩))
    have h2 : (commitInds s.freshMunId s.freshIndId s.freshFormulaId s.freshSubId
        s.freshCondId ps).inds.filter (fun i => i.municipio_id == s.freshMunId) =
        (commitInds s.freshMunId s.freshIndId s.freshFormulaId s.freshSubId s.freshCondId ps).inds := by
      rw [List.filter_eq_self]
      intro x hx
      have := (commitInds_bounds ps s.freshMunId s.freshIndId s.freshFormulaId
        s.freshSubId s.freshCondId).1 x hx
      simp only [beq_iff_eq]
      exact this.2
    rw [h1, h2]
    simp
  rw [hfilter]
  have hFOlt : ∀ f ∈ s.formulas, f.indicador_id < s.freshIndId := by
    intro f hf
    obtain ⟨i, hi, hii⟩ := List.any_eq_true.mp (List.all_eq_true.mp hfkFor f hf)
    have : f.indicador_id = i.id := (beq_iff_eq.mp hii).symm
    rw [this]
    exact freshId_gt _ i.id (List.mem_map.mpr ⟨i, hi, rfl⟩)
  have hSOlt : ∀ x ∈ s.subindicadores, x.indicador_id < s.freshIndId := by
    intro x hx
    obtain ⟨i, hi, hii⟩ := List.any_eq_true.mp (List.all_eq_true.mp hfkSub x hx)
    have : x.indicador_id = i.id := (beq_iff_eq.mp hii).symm
    rw [this]
    exact freshId_gt _ i.id (List.mem_map.mpr ⟨i, hi, rfl⟩)
  have hCOlt : ∀ x ∈ s.condicoes, x.indicador_id < s.freshIndId := by
    intro x hx
    obtain ⟨i, hi, hii⟩ := List.any_eq_true.mp (List.all_eq_true.mp hfkCond x hx)
    have : x.indicador_id = i.id := (beq_iff_eq.mp hii).symm
    rw [this]
    exact freshId_gt _ i.id (List.mem_map.mpr ⟨i, hi, rfl⟩)
  have hread := commit_readback ps s.freshMunId s.freshIndId s.freshFormulaId
    s.freshSubId s.freshCondId s.formulas s.subindicadores s.condicoes hFOlt hSOlt hCOlt
  rw [hread, hmap]

/-- A canonical document exercising every nested layer. -/
def c2CanonDoc : Doc :=
  { municipio := "Itanhaem", uf := "SP", edital := some "001/2023", ano_edital := some 2023
    indicadores := [
      { nome_indicador := some "Disponibilidade", nome := none
        descricao := some "desc", unidade := some "%"
        tags := some ["luz"], observacoes := some ["obs"], inconsistencias := some []
        formula := some { bruta := some "x + y", normalizada := some "x+y", hash := some "h1" }
        subindicadores := [{ nome := some "Ponto", descricao := some "p" }]
        condicoes := .list [{ regra := some "r1", nota := some 2 }] },
      { nome_indicador := some "Luminosidade", nome := none
        descricao := none, unidade := none
        tags := some [], observacoes := some [], inconsistencias := some []
        formula := none
        subindicadores := []
        condicoes := .list [] }] }

theorem c2_roundtrip_canonical_witness :
    (emptyStore.fkOkB = true ∧ c2CanonDoc.canonicalB = true ∧
     dupIn emptyStore c2CanonDoc = false) ∧
    roundTrip emptyStore c2CanonDoc = some c2CanonDoc :=
  ⟨⟨by decide, by decide, by decide⟩,
   c2_roundtrip_canonical emptyStore c2CanonDoc (by decide) (by decide) (by decide)⟩

/-- A document the importer accepts whose `condicoes` uses the mapping form. -/
def c2DictDoc : Doc :=
  { municipio := "Aracaju", uf := "SE", edital := none, ano_edital := none
    indicadores := [
      { nome_indicador := some "I", nome := none
        descricao := none, unidade := none
        tags := some [], observacoes := some [], inconsistencias := some []
        formula := none
        subindicadores := []
        condicoes := .dict [("grupo1", [{ regra := some "r", nota := some 1 }])] }] }

/-- What the export of that import in fact returns: the conditions come back
as the flat list, not the original mapping. -/
def c2FlatDoc : Doc :=
  { municipio := "Aracaju", uf := "SE", edital := none, ano_edital := none
    indicadores := [
      { nome_indicador := some "I", nome := none
        descricao := none, unidade := none
        tags := some [], observacoes := some [], inconsistencias := some []
        formula := none
        subindicadores := []
        condicoes := .list [{ regra := some "r", nota := some 1 }] }] }

/-- C2 counterexample: a document accepted by import whose `condicoes` is in
the mapping form does not round-trip — the export flattens it to the list
form, so `export(import(doc))` differs from `doc` in the condition field
(a shape change, not an ordering difference). -/
theorem c2_roundtrip_cex :
    roundTrip emptyStore c2DictDoc = some c2FlatDoc ∧ c2FlatDoc ≠ c2DictDoc := by
  exact ⟨by decide, by decide⟩

end Sigi
